import Mathlib

/-!
Verification development for the vendor-management payment core:
the entry-totals calculators, payment status decision rule, payment
apply/reverse reducers and period replay, embedded from
`src/features/subContractor/subContractorSlice.js`,
`src/features/hiring/hiringSlice.js` (the hiring slice) and
`src/features/payments/paymentSlice.js`.

JavaScript numbers are embedded as exact rationals (`ℚ`); the code's
`round2` epsilon nudge (`Number.EPSILON = 2 ^ (-52)`) is transcribed
literally.  A JavaScript value that can reach the numeric fields is one
of `undefined`, `null`, a finite number, or a string (`JVal` below);
non-finite numbers (`NaN`, `Infinity`) are not in the embedded domain as
numbers — everywhere the code can meet them it collapses them to `0`
through `isFinite` / `|| 0` checks, and string inputs that would parse
to them are mapped to `none` by the string-to-number parser, which the
embedding then collapses to `0` at the same spots.
-/

namespace VM

/-- Embedded domain of JavaScript values that reach the numeric and
text fields of the payment core. -/
inductive JVal where
  | undefined
  | null
  | num (q : ℚ)
  | str (s : String)
deriving DecidableEq

/-! Character-list utilities mirroring the JavaScript string methods
used by the slices (`trim`, `replace`, `split`, `toLowerCase`).  They
are written structurally over `List Char` so that they evaluate. -/

/-- Drop leading whitespace characters, as at one end of `String.prototype.trim`. -/
def dropWs : List Char → List Char
  | [] => []
  | c :: cs => if c.isWhitespace then dropWs cs else c :: cs

/-- Model of `String.prototype.trim`: drop whitespace at both ends. -/
def jsTrim (cs : List Char) : List Char :=
  ((dropWs ((dropWs cs).reverse)).reverse)

/-- Numeric value of a list of decimal digits, most significant first. -/
def digitsVal (ds : List Char) : ℕ :=
  ds.foldl (fun a c => a * 10 + (c.toNat - '0'.toNat)) 0

/-- Scale a rational by a signed power of ten (for exponent parts). -/
def pow10 (e : ℤ) (q : ℚ) : ℚ :=
  if 0 ≤ e then q * 10 ^ e.toNat else q / 10 ^ (-e).toNat

/-- Parse the exponent tail of a decimal literal (after `e`/`E`). -/
def parseExpTail (cs : List Char) : Option ℤ :=
  let p : ℤ × List Char :=
    match cs with
    | '+' :: r => (1, r)
    | '-' :: r => (-1, r)
    | r => (1, r)
  let d := p.2.span (·.isDigit)
  if d.1.isEmpty then none
  else if d.2.isEmpty then some (p.1 * digitsVal d.1) else none

/-- Parse a nonempty trimmed string as a JavaScript decimal numeric
literal: optional sign, integer digits, optional fraction, optional
exponent.  `none` models `NaN` (and, for callers that follow with an
`isFinite` check, the non-finite literal `Infinity`, which is likewise
rejected here).  The hexadecimal/binary/octal literal forms accepted by
`Number` are outside the embedded input domain and also yield `none`. -/
def parseDecCore (cs : List Char) : Option ℚ :=
  let sg : ℚ × List Char :=
    match cs with
    | '+' :: r => (1, r)
    | '-' :: r => (-1, r)
    | r => (1, r)
  let ip := sg.2.span (·.isDigit)
  let fp : List Char × List Char :=
    match ip.2 with
    | '.' :: r => r.span (·.isDigit)
    | r => ([], r)
  if ip.1.isEmpty ∧ fp.1.isEmpty then none
  else
    let mant : ℚ := sg.1 * ((digitsVal ip.1 : ℚ) + (digitsVal fp.1 : ℚ) / 10 ^ fp.1.length)
    match fp.2 with
    | [] => some mant
    | 'e' :: r => (parseExpTail r).map (fun e => pow10 e mant)
    | 'E' :: r => (parseExpTail r).map (fun e => pow10 e mant)
    | _ => none

/-- Model of `Number(s)` on a string: whitespace-trimmed, empty means
`0`, otherwise a decimal literal; `none` models a non-finite result. -/
def jsStrToNum (s : String) : Option ℚ :=
  let t := jsTrim s.data
  if t.isEmpty then some 0 else parseDecCore t

/-- Model of the `Number(v)` coercion on the embedded value domain;
`none` models `NaN` (`Number(undefined)` and unparseable strings). -/
def jsToNum : JVal → Option ℚ
  | .undefined => none
  | .null => some 0
  | .num q => some q
  | .str s => jsStrToNum s

/-- Embedding of the slices' shared helper
`round2(v) = Math.round((Number(v) + Number.EPSILON) * 100) / 100`.
JavaScript `Math.round x = ⌊x + 1/2⌋` (half rounds toward `+∞`). -/
def round2 (q : ℚ) : ℚ :=
  (⌊(q + 1 / 2 ^ 52) * 100 + 1 / 2⌋ : ℚ) / 100

/-- Embedding of `parseNumber` (identical in both slices): empty, null
and undefined give `0`; strings are trimmed, then commas and spaces are
removed (`replace(/[, ]+/g, "")`), then parsed, with non-finite results
collapsed to `0`.  For a finite number input, `Number(String(v))`
round-trips to the same value, so the `num` case is the identity. -/
def parseNumber : JVal → ℚ
  | .undefined => 0
  | .null => 0
  | .num q => q
  | .str s =>
    if s = "" then 0
    else
      let cleaned := (jsTrim s.data).filter (fun c => !(c == ',' || c == ' '))
      match ((if cleaned.isEmpty then some 0 else parseDecCore cleaned) : Option ℚ) with
      | some n => n
      | none => 0

/-- Embedding of the subcontractor slice's `normalizeRate`: empty, null
and undefined give `0`; the input is stringified, trimmed, stripped of
`%`, whitespace and commas (`replace(/[%\s,]+/g, "")`) and parsed;
zero or non-finite results give `0`; a value at least `1` is divided by
`100`, a smaller value is returned unchanged.  For a finite number
input the stringify-clean-parse round-trip is the identity. -/
def normalizeRate : JVal → ℚ
  | .undefined => 0
  | .null => 0
  | .num q => if q = 0 then 0 else if 1 ≤ q then q / 100 else q
  | .str s =>
    if s = "" then 0
    else
      let cleaned := (jsTrim s.data).filter (fun c => !(c == '%' || c == ',' || c.isWhitespace))
      let r : ℚ :=
        match ((if cleaned.isEmpty then some 0 else parseDecCore cleaned) : Option ℚ) with
        | some n => n
        | none => 0
      if r = 0 then 0 else if 1 ≤ r then r / 100 else r

/-- Embedding of the hiring slice's `normalizeRate`: it applies
`Number` directly — no emptiness special case and no `%`/comma/space
cleaning — then the same zero/non-finite and `≥ 1` branches. -/
def normalizeRateHS (v : JVal) : ℚ :=
  match jsToNum v with
  | none => 0
  | some r => if r = 0 then 0 else if 1 ≤ r then r / 100 else r

/-- Raw form payload consumed by the entry totals calculators; every
field is a loosely-typed JavaScript value, `undefined` when absent. -/
structure Values where
  gross_amount : JVal := .undefined
  gst_rate : JVal := .undefined
  tds_rate : JVal := .undefined
  retention_rate : JVal := .undefined
  workType : JVal := .undefined
  debit_deduction : JVal := .undefined
  gst_hold : JVal := .undefined
  other_deductions : JVal := .undefined
  advances : JVal := .undefined
  part_paid : JVal := .undefined

/-- Computed financial record returned by both calculators. -/
structure ComputedTotals where
  gst_amount : ℚ
  total_amount : ℚ
  tds : ℚ
  retention : ℚ
  debit_deduction : ℚ
  gst_hold : ℚ
  other_deductions : ℚ
  total_deductions : ℚ
  net_total : ℚ
  advances : ℚ
  part_paid : ℚ
  payables : ℚ
deriving DecidableEq

/-- Test for the hiring-service work type as the subcontractor
calculator performs it: `String(values.workType || "").trim() ===
"Hiring Service"`.  Only a string input can stringify and trim to the
phrase; numbers stringify to digit characters, and falsy values
(`undefined`, `null`, `0`, `""`) become the empty string. -/
def isHiringServiceVal : JVal → Bool
  | .str s => jsTrim s.data = "Hiring Service".data
  | _ => false

/-- Embedding of `calculateEntryTotals` from the subcontractor slice. -/
def calculateEntryTotals (values : Values) : ComputedTotals :=
  let gross := round2 (parseNumber values.gross_amount)
  let gstRate := normalizeRate values.gst_rate
  let tdsRate := normalizeRate values.tds_rate
  let gst_amount := round2 (gross * gstRate)
  let total_amount := round2 (gross + gst_amount)
  let tds := round2 (gross * tdsRate)
  let explicitRetentionRate : Option ℚ :=
    match values.retention_rate with
    | .num q => some q
    | _ => none
  let isHiringService := isHiringServiceVal values.workType
  let retention_rate : ℚ :=
    if isHiringService then 0
    else
      match explicitRetentionRate with
      | some q => q
      | none => 0.05
  let retention := round2 (gross * retention_rate)
  let debit_deduction := round2 (parseNumber values.debit_deduction)
  let gst_hold :=
    match values.gst_hold with
    | .undefined => gst_amount
    | .null => gst_amount
    | .str s => if s = "" then gst_amount else round2 (parseNumber (.str s))
    | .num q => round2 (parseNumber (.num q))
  let other_deductions := round2 (parseNumber values.other_deductions)
  let total_deductions :=
    round2 (tds + retention + debit_deduction + gst_hold + other_deductions)
  let net_total := round2 (total_amount - total_deductions)
  let advances := round2 (parseNumber values.advances)
  let part_paid := round2 (parseNumber values.part_paid)
  let payables := round2 (net_total - advances - part_paid)
  { gst_amount := gst_amount
    total_amount := total_amount
    tds := tds
    retention := retention
    debit_deduction := debit_deduction
    gst_hold := gst_hold
    other_deductions := other_deductions
    total_deductions := total_deductions
    net_total := net_total
    advances := advances
    part_paid := part_paid
    payables := payables }

/-- Embedding of `calculateHiringEntryTotals` from the hiring slice:
the normalized GST and TDS rates are defaulted (`|| 0.18`, `|| 0.02`)
when falsy, and retention is pinned to `0`. -/
def calculateHiringEntryTotals (values : Values) : ComputedTotals :=
  let gross := round2 (parseNumber values.gross_amount)
  let gstRate := if normalizeRateHS values.gst_rate = 0 then 0.18 else normalizeRateHS values.gst_rate
  let tdsRate := if normalizeRateHS values.tds_rate = 0 then 0.02 else normalizeRateHS values.tds_rate
  let gst := round2 (gross * gstRate)
  let total := round2 (gross + gst)
  let tds := round2 (gross * tdsRate)
  let retention : ℚ := 0
  let debit := round2 (parseNumber values.debit_deduction)
  let gstHold :=
    match values.gst_hold with
    | .undefined => gst
    | .null => gst
    | .str s => if s = "" then gst else round2 (parseNumber (.str s))
    | .num q => round2 (parseNumber (.num q))
  let others := round2 (parseNumber values.other_deductions)
  let sumDeductions := round2 (tds + debit + retention + gstHold + others)
  let netTotal := round2 (total - sumDeductions)
  let advances := round2 (parseNumber values.advances)
  let partPaid := round2 (parseNumber values.part_paid)
  let payables := round2 (netTotal - advances - partPaid)
  { gst_amount := gst
    total_amount := total
    tds := tds
    retention := retention
    debit_deduction := debit
    gst_hold := gstHold
    other_deductions := others
    total_deductions := sumDeductions
    net_total := netTotal
    advances := advances
    part_paid := partPaid
    payables := payables }

/-! Entry collections and the payment apply/reverse reducers.

An entry's `invoice_date` string appears in the reducers only through
`Date.parse`; the embedding therefore carries the field as its parse
result: `some ms` for a date string parsing to `ms` milliseconds since
the epoch, `none` for the empty or unparseable strings, which the code
collapses to the sort key `0` via `date ? Date.parse(date) : 0` and
`Number(da || 0)`. -/

/-- One billing entry as the reducers see it.  `part_paid` and
`payables` are the two fields the reducers mutate; the remaining fields
are carried to state the frame conditions. -/
structure Entry where
  id : String
  vendor_code : String
  vendor_name : String
  year : ℤ
  month : ℤ
  invoice_date : Option ℤ
  gross_amount : ℚ
  net_total : ℚ
  part_paid : ℚ
  payables : ℚ
deriving DecidableEq

/-- Slice state shared by the subcontractor and hiring collections. -/
structure SliceState where
  entries : List Entry
  loading : Bool
  error : Option String
  selectedYear : ℤ
  selectedMonth : ℤ
deriving DecidableEq

/-- Payload of an `APPLY_PAYMENTS` / `REVERSE_PAYMENTS` action.
`amount` is the number the dispatchers produce with `Number(...)`; a
`NaN` amount is excluded from the domain since both reducers coerce it
to a falsy value (`Number(amount) || 0`, `!amount`) and no-op. -/
structure PaymentPayload where
  vendorCode : Option String
  year : Option ℤ
  month : Option ℤ
  amount : ℚ
  entryId : Option String

/-- Truthiness of an optional string (`undefined` and `""` are falsy). -/
def truthyStr : Option String → Bool
  | none => false
  | some s => s ≠ ""

/-- Truthiness of an optional integer (`undefined` and `0` are falsy). -/
def truthyInt : Option ℤ → Bool
  | none => false
  | some n => n ≠ 0

/-- The target entry id of a payload, `none` unless truthy
(mirrors `if (entryId)`). -/
def entryIdOf (p : PaymentPayload) : Option String :=
  match p.entryId with
  | some s => if s = "" then none else some s
  | none => none

/-- Sort key used by the subcontractor reducers:
`Number((invoice_date ? Date.parse(invoice_date) : 0) || 0)`. -/
def sortKey (e : Entry) : ℤ := e.invoice_date.getD 0

/-- Candidate filter of the subcontractor reducers: vendor code or
vendor display name, plus year and month (all `Number`-coerced). -/
def matchesSC (vc : String) (y m : ℤ) (e : Entry) : Bool :=
  (e.vendor_code == vc || e.vendor_name == vc) && e.year == y && e.month == m

/-- Candidate filter of the hiring reducers: strict equality on the
vendor code only, plus year and month. -/
def matchesHS (vc : String) (y m : ℤ) (e : Entry) : Bool :=
  e.vendor_code == vc && e.year == y && e.month == m

/-- Test for `String(vendorCode).startsWith("HS_")`. -/
def startsWithHS (s : String) : Bool :=
  match s.data with
  | 'H' :: 'S' :: '_' :: _ => true
  | _ => false

/-- The distribution loop of an apply action over candidate entries
tagged with their position in the state's entry list: while an amount
remains, skip entries with non-positive payables, move
`min(remaining, payables)` into `part_paid` and out of `payables`
(floored at 0), each store rounded to 2 decimals.  Returns the list of
per-position updates `(index, new part_paid, new payables)`. -/
def applyWalk : List (ℕ × Entry) → ℚ → List (ℕ × ℚ × ℚ)
  | [], _ => []
  | (i, e) :: rest, remaining =>
    if remaining ≤ 0 then []
    else if e.payables ≤ 0 then applyWalk rest remaining
    else
      let app := min remaining e.payables
      (i, round2 (e.part_paid + app), round2 (max 0 (e.payables - app))) ::
        applyWalk rest (round2 (remaining - app))

/-- The distribution loop of a reverse action: while an amount remains,
skip entries with non-positive `part_paid`, subtract
`min(remaining, part_paid)` from `part_paid` (floored at 0) and add it
back to `payables`, each store rounded to 2 decimals. -/
def reverseWalk : List (ℕ × Entry) → ℚ → List (ℕ × ℚ × ℚ)
  | [], _ => []
  | (i, e) :: rest, remaining =>
    if remaining ≤ 0 then []
    else if e.part_paid ≤ 0 then reverseWalk rest remaining
    else
      let undo := min remaining e.part_paid
      (i, round2 (max 0 (e.part_paid - undo)), round2 (e.payables + undo)) ::
        reverseWalk rest (round2 (remaining - undo))

/-- Write a list of positional `(index, part_paid, payables)` updates
back into the entry list; positions not updated are left unchanged
(this models the reducers' in-place mutation of the matched entry
objects). -/
def applyUpdates (entries : List Entry) (ups : List (ℕ × ℚ × ℚ)) : List Entry :=
  entries.enum.map fun ie =>
    match ups.find? (fun u => u.1 == ie.1) with
    | some u => { ie.2 with part_paid := u.2.1, payables := u.2.2 }
    | none => ie.2

/-- Embedding of the subcontractor slice's `APPLY_PAYMENTS` case:
guard on truthy vendor/period and positive amount, filter candidates,
stable-sort them oldest invoice date first (unparseable dates key 0),
then either pay down the single entry with the given id or walk the
sorted candidates distributing the amount. -/
def applySC (st : SliceState) (p : PaymentPayload) : SliceState :=
  match p.vendorCode, p.year, p.month with
  | some vc, some y, some m =>
    if vc = "" ∨ y = 0 ∨ m = 0 ∨ p.amount ≤ 0 then st
    else
      let cands := st.entries.enum.filter (fun ie => matchesSC vc y m ie.2)
      if cands.isEmpty then st
      else
        let sorted := List.insertionSort (fun a b : ℕ × Entry => sortKey a.2 ≤ sortKey b.2) cands
        match entryIdOf p with
        | some eid =>
          match sorted.find? (fun ie => ie.2.id == eid) with
          | none => st
          | some it =>
            let app := min p.amount it.2.payables
            let ups := [(it.1, round2 (it.2.part_paid + app), round2 (max 0 (it.2.payables - app)))]
            { st with entries := applyUpdates st.entries ups }
        | none => { st with entries := applyUpdates st.entries (applyWalk sorted p.amount) }
  | _, _, _ => st

/-- Embedding of the subcontractor slice's `REVERSE_PAYMENTS` case:
same guards and candidate filter, stable sort newest invoice date
first, then undo `part_paid` into `payables` on the targeted entry or
along the sorted walk. -/
def reverseSC (st : SliceState) (p : PaymentPayload) : SliceState :=
  match p.vendorCode, p.year, p.month with
  | some vc, some y, some m =>
    if vc = "" ∨ y = 0 ∨ m = 0 ∨ p.amount ≤ 0 then st
    else
      let cands := st.entries.enum.filter (fun ie => matchesSC vc y m ie.2)
      if cands.isEmpty then st
      else
        let sorted := List.insertionSort (fun a b : ℕ × Entry => sortKey b.2 ≤ sortKey a.2) cands
        match entryIdOf p with
        | some eid =>
          match sorted.find? (fun ie => ie.2.id == eid) with
          | none => st
          | some it =>
            let undo := min p.amount it.2.part_paid
            let ups := [(it.1, round2 (max 0 (it.2.part_paid - undo)), round2 (it.2.payables + undo))]
            { st with entries := applyUpdates st.entries ups }
        | none => { st with entries := applyUpdates st.entries (reverseWalk sorted p.amount) }
  | _, _, _ => st

/-- Embedding of the hiring slice's `APPLY_PAYMENTS` case.  Its guard
is `!vendorCode || !year || !month || !amount`, so only a zero amount
is rejected — a negative amount passes.  It additionally requires the
vendor code to start with `"HS_"`, filters with strict equality on the
vendor code only, and walks the candidates in state order without any
invoice-date sorting. -/
def applyHS (st : SliceState) (p : PaymentPayload) : SliceState :=
  match p.vendorCode, p.year, p.month with
  | some vc, some y, some m =>
    if vc = "" ∨ y = 0 ∨ m = 0 ∨ p.amount = 0 then st
    else if ¬ startsWithHS vc then st
    else
      let cands := st.entries.enum.filter (fun ie => matchesHS vc y m ie.2)
      if cands.isEmpty then st
      else
        match entryIdOf p with
        | some eid =>
          match cands.find? (fun ie => ie.2.id == eid) with
          | none => st
          | some it =>
            let app := min p.amount it.2.payables
            let ups := [(it.1, round2 (it.2.part_paid + app), round2 (max 0 (it.2.payables - app)))]
            { st with entries := applyUpdates st.entries ups }
        | none => { st with entries := applyUpdates st.entries (applyWalk cands p.amount) }
  | _, _, _ => st

/-- Embedding of the hiring slice's `REVERSE_PAYMENTS` case: same
guards and filter as its apply case, walking candidates in state order
without sorting. -/
def reverseHS (st : SliceState) (p : PaymentPayload) : SliceState :=
  match p.vendorCode, p.year, p.month with
  | some vc, some y, some m =>
    if vc = "" ∨ y = 0 ∨ m = 0 ∨ p.amount = 0 then st
    else if ¬ startsWithHS vc then st
    else
      let cands := st.entries.enum.filter (fun ie => matchesHS vc y m ie.2)
      if cands.isEmpty then st
      else
        match entryIdOf p with
        | some eid =>
          match cands.find? (fun ie => ie.2.id == eid) with
          | none => st
          | some it =>
            let undo := min p.amount it.2.part_paid
            let ups := [(it.1, round2 (max 0 (it.2.part_paid - undo)), round2 (it.2.payables + undo))]
            { st with entries := applyUpdates st.entries ups }
        | none => { st with entries := applyUpdates st.entries (reverseWalk cands p.amount) }
  | _, _, _ => st

/-- An apply or reverse action aimed at the subcontractor collection. -/
inductive PayOp where
  | apply (p : PaymentPayload)
  | reverse (p : PaymentPayload)

/-- Run a sequence of apply/reverse actions through the subcontractor
reducers. -/
def runOpsSC (st : SliceState) : List PayOp → SliceState
  | [] => st
  | .apply p :: rest => runOpsSC (applySC st p) rest
  | .reverse p :: rest => runOpsSC (reverseSC st p) rest

/-! The payment slice: status decision rule, month-label parsing and
period replay. -/

/-- The `apNum` computation of `decideStatus`: empty string, null and
undefined map to `null`; everything else is `Number`-coerced, with a
`NaN` result merged into `none` (the code checks `apNum === null ||
Number.isNaN(apNum)` together). -/
def apValue : JVal → Option ℚ
  | .str "" => none
  | .null => none
  | .undefined => none
  | v => jsToNum v

/-- Embedding of the payment slice's `decideStatus` helper.  The
incoming status is a string, with `""` standing for the absent/empty
values, which behave identically in both uses (`=== "paid"` fails and
`incoming || "unpaid"` falls back). -/
def decideStatus (incomingStatus : String) (amount : JVal) (amountPayable : JVal) : String :=
  if incomingStatus = "paid" then "paid"
  else
    let a : ℚ := (jsToNum amount).getD 0
    if 0 < a then "paid"
    else
      match apValue amountPayable with
      | none => if 0 < a then "paid" else if incomingStatus = "" then "unpaid" else incomingStatus
      | some ap =>
        if ap = 0 then "paid"
        else if ap ≤ a then "paid"
        else if incomingStatus = "" then "unpaid" else incomingStatus

/-- The twelve month names the label parser recognises. -/
def monthNames : List String :=
  ["January", "February", "March", "April", "May", "June",
   "July", "August", "September", "October", "November", "December"]

/-- Split a character list on whitespace runs (model of
`split(/\s+/)` on an already-trimmed string: no empty parts arise). -/
def splitWs (cs : List Char) : List (List Char) :=
  (cs.splitOnP (·.isWhitespace)).filter (!·.isEmpty)

/-- Embedding of the payment slice's `parseMonthLabel`, which expects a
label such as `"July 2025"`: non-strings give `(null, null)`; the last
whitespace-separated token is the year (zero or unparseable collapses
to `null`), the other tokens joined by single spaces name the month,
matched case-insensitively; the year keeps its full numeric value, so
it is carried as a rational.  -/
def parseMonthLabel (label : JVal) : Option ℚ × Option ℤ :=
  match label with
  | .str s =>
    let parts := splitWs (jsTrim s.data)
    if parts.length < 2 then (none, none)
    else
      let yearStr := (parts.getLast?).getD []
      let monthName := List.intercalate [' '] (parts.dropLast)
      let monthIndex :=
        monthNames.findIdx? (fun mn => mn.data.map Char.toLower == monthName.map Char.toLower)
      let year : Option ℚ :=
        match jsStrToNum (String.mk yearStr) with
        | none => none
        | some q => if q = 0 then none else some q
      let month : Option ℤ :=
        match monthIndex with
        | some i => some ((i : ℤ) + 1)
        | none => none
      (year, month)
  | _ => (none, none)

/-- One persisted payment record as period replay consumes it.
`month` is the combined "Month Year" label; `entryId` is `none` when
the record has no such field. -/
structure Payment where
  id : String
  vendorCode : String
  month : JVal
  amount : JVal
  status : String
  entryId : Option String
deriving DecidableEq

/-- Selection predicate of period replay: the record is marked paid and
its parsed label equals the requested period (`parsed.year ===
Number(year) && parsed.month === Number(month)`). -/
def paidMatches (y m : ℤ) (p : Payment) : Bool :=
  p.status == "paid" &&
    ((parseMonthLabel p.month).1 == some (y : ℚ) && (parseMonthLabel p.month).2 == some m)

/-- Build the `APPLY_PAYMENTS` payload replay dispatches for a selected
payment (the `entryId` key is present only when truthy). -/
def replayPayload (y m : ℤ) (amt : ℚ) (p : Payment) : PaymentPayload :=
  { vendorCode := some p.vendorCode
    year := some y
    month := some m
    amount := amt
    entryId :=
      match p.entryId with
      | some e => if e = "" then none else some e
      | none => none }

/-- Embedding of `replayPaidPaymentsForPeriod`: for a truthy period,
filter the persisted ledger to paid records of that period, then
dispatch one apply action per selected record whose coerced amount
(`Number(p.amount) || 0`) is truthy, skipping the rest.  Returns the
selected records (the thunk's return value) together with the
dispatched payloads in order. -/
def replayPaidPaymentsForPeriod (y m : ℤ) (ledger : List Payment) :
    List Payment × List PaymentPayload :=
  if y = 0 ∨ m = 0 then ([], [])
  else
    let sel := ledger.filter (paidMatches y m)
    let ops := sel.foldl
      (fun acc p =>
        let amt := (jsToNum p.amount).getD 0
        if amt = 0 then acc else acc ++ [replayPayload y m amt p])
      []
    (sel, ops)

/-! Auxiliary predicates used by the theorem statements, and the
concrete fixtures the scenario claims and counterexamples evaluate. -/

/-- A rational is an exact 2-decimal amount. -/
def twoDec (q : ℚ) : Prop := ∃ n : ℤ, q = (n : ℚ) / 100

/-- Two entries agree on every field other than the two payment fields
`part_paid` and `payables`. -/
def frameEq (e er : Entry) : Prop :=
  er.id = e.id ∧ er.vendor_code = e.vendor_code ∧ er.vendor_name = e.vendor_name ∧
    er.year = e.year ∧ er.month = e.month ∧ er.invoice_date = e.invoice_date ∧
    er.gross_amount = e.gross_amount ∧ er.net_total = e.net_total

/-- A reducer only ever changes the `part_paid`/`payables` fields of
entries: the other slice fields, the number and order of entries, and
every other entry field are preserved. -/
def framePreserved (f : SliceState → PaymentPayload → SliceState) : Prop :=
  ∀ (st : SliceState) (p : PaymentPayload),
    (f st p).loading = st.loading ∧ (f st p).error = st.error ∧
    (f st p).selectedYear = st.selectedYear ∧
    (f st p).selectedMonth = st.selectedMonth ∧
    (f st p).entries.length = st.entries.length ∧
    ∀ (i : ℕ) (e er : Entry),
      st.entries[i]? = some e → (f st p).entries[i]? = some er → frameEq e er

/-- Fixture for the subcontractor totals scenario: gross `100000`, GST
rate `18`, TDS rate `2`, subcontractor work type, all other inputs
absent. -/
def c1vals : Values :=
  { gross_amount := .num 100000, gst_rate := .num 18, tds_rate := .num 2,
    workType := .str "Subcontractor" }

/-- Fixture for the hiring totals calculator with a supplied TDS rate
of `0` and GST rate `18`. -/
def c7vals : Values :=
  { gross_amount := .num 100000, gst_rate := .num 18, tds_rate := .num 0 }

/-- Baseline subcontractor entry template for the reducer scenarios. -/
def baseEntry : Entry :=
  { id := "entry-1", vendor_code := "SC_01", vendor_name := "Vendor One",
    year := 2025, month := 7, invoice_date := some 100,
    gross_amount := 1000, net_total := 500, part_paid := 0, payables := 300 }

/-- Entry with a negative prior `part_paid` for the apply/reverse
round-trip counterexample. -/
def negPartEntry : Entry :=
  { baseEntry with id := "entry-neg", part_paid := -10, payables := 5 }

/-- Single-entry subcontractor state holding `negPartEntry`. -/
def negPartState : SliceState :=
  { entries := [negPartEntry], loading := false, error := none,
    selectedYear := 2025, selectedMonth := 7 }

/-- Payload applying (or reversing) amount `5` against `negPartEntry`'s
vendor and period. -/
def negPartPayload : PaymentPayload :=
  { vendorCode := some "SC_01", year := some 2025, month := some 7,
    amount := 5, entryId := none }

/-- February entry (newer invoice date, payables 100) for the ordering
scenario. -/
def febEntry : Entry :=
  { baseEntry with id := "entry-feb", invoice_date := some 2000, payables := 100 }

/-- January entry (older invoice date, payables 200) for the ordering
scenario; it is listed after the February entry in the state. -/
def janEntry : Entry :=
  { baseEntry with id := "entry-jan", invoice_date := some 1000, payables := 200 }

/-- Subcontractor state listing the February entry before the January
entry. -/
def orderState : SliceState :=
  { entries := [febEntry, janEntry], loading := false, error := none,
    selectedYear := 2025, selectedMonth := 7 }

/-- Payload distributing amount `150` over the ordering scenario. -/
def orderPayload : PaymentPayload :=
  { vendorCode := some "SC_01", year := some 2025, month := some 7,
    amount := 150, entryId := none }

/-- Hiring-side copies of the ordering scenario (vendor `HS_01`). -/
def febEntryHS : Entry := { febEntry with vendor_code := "HS_01" }

/-- Hiring January entry, listed second, with the older invoice date. -/
def janEntryHS : Entry := { janEntry with vendor_code := "HS_01" }

/-- Hiring state listing the February entry before the January entry. -/
def orderStateHS : SliceState :=
  { entries := [febEntryHS, janEntryHS], loading := false, error := none,
    selectedYear := 2025, selectedMonth := 7 }

/-- Payload distributing amount `150` over the hiring ordering
scenario. -/
def orderPayloadHS : PaymentPayload :=
  { vendorCode := some "HS_01", year := some 2025, month := some 7,
    amount := 150, entryId := none }

/-- Entry without a parseable invoice date, listed after a dated entry;
it sorts first (key 0). -/
def undatedEntry : Entry :=
  { baseEntry with id := "entry-undated", invoice_date := none, payables := 40 }

/-- Subcontractor state listing a dated entry before an undated one. -/
def undatedState : SliceState :=
  { entries := [baseEntry, undatedEntry], loading := false, error := none,
    selectedYear := 2025, selectedMonth := 7 }

/-- Payload distributing amount `30` over the undated scenario. -/
def undatedPayload : PaymentPayload :=
  { vendorCode := some "SC_01", year := some 2025, month := some 7,
    amount := 30, entryId := none }

/-- Single-entry subcontractor state with payables `300` for the
overpayment scenario. -/
def overState : SliceState :=
  { entries := [baseEntry], loading := false, error := none,
    selectedYear := 2025, selectedMonth := 7 }

/-- Payload applying amount `500` (exceeding the outstanding `300`). -/
def overPayload : PaymentPayload :=
  { vendorCode := some "SC_01", year := some 2025, month := some 7,
    amount := 500, entryId := none }

/-- Hiring entry targeted by the negative-amount counterexample. -/
def hsEntry : Entry :=
  { baseEntry with id := "entry-hs", vendor_code := "HS_01", part_paid := 10, payables := 100 }

/-- Hiring state holding `hsEntry`. -/
def hsState : SliceState :=
  { entries := [hsEntry], loading := false, error := none,
    selectedYear := 2025, selectedMonth := 7 }

/-- Hiring payload with a negative amount and an explicit target id. -/
def hsNegPayload : PaymentPayload :=
  { vendorCode := some "HS_01", year := some 2025, month := some 7,
    amount := -5, entryId := some "entry-hs" }

/-- Paid ledger record for July 2025 whose amount is zero. -/
def zeroAmountPayment : Payment :=
  { id := "pay-1", vendorCode := "SC_01", month := .str "July 2025",
    amount := .num 0, status := "paid", entryId := none }

/-- February entry with prior `part_paid` 100 for the reverse ordering
scenario. -/
def revFebEntry : Entry :=
  { baseEntry with id := "entry-rfeb", invoice_date := some 2000, part_paid := 100, payables := 0 }

/-- January entry with prior `part_paid` 200, listed second, for the
reverse ordering scenario. -/
def revJanEntry : Entry :=
  { baseEntry with id := "entry-rjan", invoice_date := some 1000, part_paid := 200, payables := 0 }

/-- Subcontractor state for the reverse ordering scenario. -/
def revOrderState : SliceState :=
  { entries := [revFebEntry, revJanEntry], loading := false, error := none,
    selectedYear := 2025, selectedMonth := 7 }

/-- Payload reversing amount `150` over the reverse ordering
scenario. -/
def revOrderPayload : PaymentPayload :=
  { vendorCode := some "SC_01", year := some 2025, month := some 7,
    amount := 150, entryId := none }

/-! Helper lemmas about `round2` and exact 2-decimal amounts. -/

theorem round2_twoDec {q : ℚ} (h : twoDec q) : round2 q = q := by
  obtain ⟨n, rfl⟩ := h
  unfold round2
  have h1 : ((n : ℚ) / 100 + 1 / 2 ^ 52) * 100 + 1 / 2 =
      (n : ℚ) + (100 / 2 ^ 52 + 1 / 2) := by ring
  have h2 : ⌊(100 / 2 ^ 52 + 1 / 2 : ℚ)⌋ = 0 := by
    rw [Int.floor_eq_zero_iff]
    constructor <;> norm_num
  rw [h1, Int.floor_int_add, h2]
  push_cast
  ring

theorem round2_zero : round2 0 = 0 :=
  round2_twoDec ⟨0, by norm_num⟩

theorem round2_nonneg {q : ℚ} (h : 0 ≤ q) : 0 ≤ round2 q := by
  unfold round2
  have hf : (0 : ℤ) ≤ ⌊(q + 1 / 2 ^ 52) * 100 + 1 / 2⌋ :=
    Int.floor_nonneg.mpr (by positivity)
  have : (0 : ℚ) ≤ (⌊(q + 1 / 2 ^ 52) * 100 + 1 / 2⌋ : ℚ) := by exact_mod_cast hf
  linarith

theorem twoDec_add {a b : ℚ} (ha : twoDec a) (hb : twoDec b) : twoDec (a + b) := by
  obtain ⟨n, rfl⟩ := ha
  obtain ⟨k, rfl⟩ := hb
  exact ⟨n + k, by push_cast; ring⟩

theorem twoDec_sub {a b : ℚ} (ha : twoDec a) (hb : twoDec b) : twoDec (a - b) := by
  obtain ⟨n, rfl⟩ := ha
  obtain ⟨k, rfl⟩ := hb
  exact ⟨n - k, by push_cast; ring⟩

/-! Helper lemmas about positional updates and candidate walks. -/

theorem applyUpdates_getElem (l : List Entry) (ups : List (ℕ × ℚ × ℚ)) (i : ℕ) :
    (applyUpdates l ups)[i]? = (l[i]?).map (fun e =>
      match ups.find? (fun u => u.1 == i) with
      | some u => { e with part_paid := u.2.1, payables := u.2.2 }
      | none => e) := by
  unfold applyUpdates
  rw [List.getElem?_map, List.getElem?_enum, Option.map_map]
  rfl

theorem applyUpdates_length (l : List Entry) (ups : List (ℕ × ℚ × ℚ)) :
    (applyUpdates l ups).length = l.length := by
  unfold applyUpdates
  rw [List.length_map, List.enum_length]

theorem mem_applyUpdates {l : List Entry} {ups : List (ℕ × ℚ × ℚ)} {er : Entry}
    (h : er ∈ applyUpdates l ups) :
    ∃ i e, l[i]? = some e ∧
      (er = e ∨ ∃ u ∈ ups, u.1 = i ∧
        er = { e with part_paid := u.2.1, payables := u.2.2 }) := by
  unfold applyUpdates at h
  obtain ⟨⟨i, a⟩, hmem, heq⟩ := List.mem_map.mp h
  have hget : l[i]? = some a := List.mem_enum_iff_getElem?.mp hmem
  refine ⟨i, a, hget, ?_⟩
  dsimp only at heq
  rcases hfind : ups.find? (fun u => u.1 == i) with _ | u
  · left
    rw [hfind] at heq
    exact heq.symm
  · right
    refine ⟨u, List.mem_of_find?_eq_some hfind, ?_, ?_⟩
    · have := List.find?_some hfind
      simpa using this
    · rw [hfind] at heq
      exact heq.symm

theorem applyWalk_bounds {cands : List (ℕ × Entry)} {r : ℚ} {u : ℕ × ℚ × ℚ}
    (hu : u ∈ applyWalk cands r) :
    ∃ x ∈ cands, x.1 = u.1 ∧
      (0 ≤ x.2.part_paid → 0 ≤ x.2.payables → 0 ≤ u.2.1 ∧ 0 ≤ u.2.2) := by
  induction cands generalizing r with
  | nil => simp [applyWalk] at hu
  | cons x rest ih =>
    obtain ⟨i, e⟩ := x
    unfold applyWalk at hu
    by_cases h1 : r ≤ 0
    · simp [h1] at hu
    · rw [if_neg h1] at hu
      by_cases h2 : e.payables ≤ 0
      · rw [if_pos h2] at hu
        obtain ⟨y, hy, hrest⟩ := ih hu
        exact ⟨y, List.mem_cons_of_mem _ hy, hrest⟩
      · rw [if_neg h2] at hu
        rcases List.mem_cons.mp hu with heq | htail
        · refine ⟨(i, e), List.mem_cons_self _ _, ?_, ?_⟩
          · rw [heq]
          · intro hpp _
            rw [heq]
            have happ : 0 ≤ min r e.payables :=
              le_min (le_of_lt (not_le.mp h1)) (le_of_lt (not_le.mp h2))
            exact ⟨round2_nonneg (by linarith), round2_nonneg (le_max_left 0 _)⟩
        · obtain ⟨y, hy, hrest⟩ := ih htail
          exact ⟨y, List.mem_cons_of_mem _ hy, hrest⟩

theorem reverseWalk_bounds {cands : List (ℕ × Entry)} {r : ℚ} {u : ℕ × ℚ × ℚ}
    (hu : u ∈ reverseWalk cands r) :
    ∃ x ∈ cands, x.1 = u.1 ∧
      (0 ≤ x.2.part_paid → 0 ≤ x.2.payables → 0 ≤ u.2.1 ∧ 0 ≤ u.2.2) := by
  induction cands generalizing r with
  | nil => simp [reverseWalk] at hu
  | cons x rest ih =>
    obtain ⟨i, e⟩ := x
    unfold reverseWalk at hu
    by_cases h1 : r ≤ 0
    · simp [h1] at hu
    · rw [if_neg h1] at hu
      by_cases h2 : e.part_paid ≤ 0
      · rw [if_pos h2] at hu
        obtain ⟨y, hy, hrest⟩ := ih hu
        exact ⟨y, List.mem_cons_of_mem _ hy, hrest⟩
      · rw [if_neg h2] at hu
        rcases List.mem_cons.mp hu with heq | htail
        · refine ⟨(i, e), List.mem_cons_self _ _, ?_, ?_⟩
          · rw [heq]
          · intro _ hpay
            rw [heq]
            have hundo : 0 ≤ min r e.part_paid :=
              le_min (le_of_lt (not_le.mp h1)) (le_of_lt (not_le.mp h2))
            exact ⟨round2_nonneg (le_max_left 0 _), round2_nonneg (by linarith)⟩
        · obtain ⟨y, hy, hrest⟩ := ih htail
          exact ⟨y, List.mem_cons_of_mem _ hy, hrest⟩

/-! Claim theorems: entry totals calculators and rate normalization. -/

/-- C1: on gross 100000, GST rate 18, TDS rate 2, subcontractor work
type and no other inputs, `calculateEntryTotals` yields GST 18000,
total 118000, TDS 2000, retention 5000 (default 5 percent), GST hold
18000 (defaulted to the GST amount), total deductions 25000, net total
93000 and payables 93000, with zero debit/other/advances/part-paid. -/
theorem c1_subcontractor_scenario :
    calculateEntryTotals c1vals =
      { gst_amount := 18000, total_amount := 118000, tds := 2000, retention := 5000,
        debit_deduction := 0, gst_hold := 18000, other_deductions := 0,
        total_deductions := 25000, net_total := 93000, advances := 0, part_paid := 0,
        payables := 93000 } := by
  norm_num +decide [calculateEntryTotals, c1vals, parseNumber, normalizeRate,
    isHiringServiceVal, round2, jsTrim, dropWs, ComputedTotals.mk.injEq]

/-- C3 counterexample: `decideStatus` with a non-paid status, amount 0
and the nonzero remaining payable `-100` returns `"paid"`, not the
claimed `explicitStatus`-or-`"unpaid"`: the code has an extra
`amount >= remainingPayable` rule the claim omits. -/
theorem c3_decideStatus_counterexample :
    decideStatus "unpaid" (.num 0) (.num (-100)) = "paid" ∧
      decideStatus "unpaid" (.num 0) (.num (-100)) ≠ "unpaid" := by
  constructor
  · norm_num +decide [decideStatus, apValue, jsToNum]
  · norm_num +decide [decideStatus, apValue, jsToNum]

/-- C3 amended: `decideStatus` applies, in order: (1) explicit
`"paid"` wins; (2) a positive coerced amount gives `"paid"`; (3) a
remaining payable that is explicitly `0` gives `"paid"`; (4) when the
remaining payable parses to a nonzero number, `"paid"` iff the coerced
amount is at least it (so a negative remaining payable with amount `0`
gives `"paid"`), else the supplied status or `"unpaid"`; (5) when the
remaining payable is absent/unparseable, the supplied status or
`"unpaid"`.  The claimed truth table holds. -/
theorem c3_decideStatus_rules :
    (∀ (a p : JVal), decideStatus "paid" a p = "paid") ∧
    (∀ (s : String) (a p : JVal), 0 < (jsToNum a).getD 0 → decideStatus s a p = "paid") ∧
    (∀ (s : String) (a p : JVal), (jsToNum a).getD 0 ≤ 0 → apValue p = some 0 →
      decideStatus s a p = "paid") ∧
    (∀ (s : String) (a p : JVal) (ap : ℚ), (jsToNum a).getD 0 ≤ 0 → apValue p = some ap →
      ap ≠ 0 → ap ≤ (jsToNum a).getD 0 → decideStatus s a p = "paid") ∧
    (∀ (s : String) (a p : JVal) (ap : ℚ), (jsToNum a).getD 0 ≤ 0 → apValue p = some ap →
      ap ≠ 0 → (jsToNum a).getD 0 < ap →
      decideStatus s a p = (if s = "paid" then "paid" else if s = "" then "unpaid" else s)) ∧
    (∀ (s : String) (a p : JVal), (jsToNum a).getD 0 ≤ 0 → apValue p = none →
      decideStatus s a p = (if s = "paid" then "paid" else if s = "" then "unpaid" else s)) ∧
    decideStatus "paid" (.num 0) (.num 100) = "paid" ∧
    decideStatus "unpaid" (.num 50) (.num 100) = "paid" ∧
    decideStatus "unpaid" (.num 0) (.num 0) = "paid" ∧
    decideStatus "unpaid" (.num 0) (.num 100) = "unpaid" := by
  refine ⟨?_, ?_, ?_, ?_, ?_, ?_, ?_, ?_, ?_, ?_⟩
  · intro a p
    simp [decideStatus]
  · intro s a p h
    by_cases hs : s = "paid" <;> simp [decideStatus, hs, h]
  · intro s a p ha hap
    by_cases hs : s = "paid" <;> simp [decideStatus, hs, not_lt.mpr ha, hap]
  · intro s a p ap ha hap hne hle
    by_cases hs : s = "paid" <;> simp [decideStatus, hs, not_lt.mpr ha, hap, hne, hle]
  · intro s a p ap ha hap hne hlt
    by_cases hs : s = "paid" <;>
      simp [decideStatus, hs, not_lt.mpr ha, hap, hne, not_le.mpr hlt]
  · intro s a p ha hap
    by_cases hs : s = "paid" <;> simp [decideStatus, hs, not_lt.mpr ha, hap]
  · norm_num +decide [decideStatus, apValue, jsToNum]
  · norm_num +decide [decideStatus, apValue, jsToNum]
  · norm_num +decide [decideStatus, apValue, jsToNum]
  · norm_num +decide [decideStatus, apValue, jsToNum]

/-- C3 witness: the amended rules applied at concrete inputs. -/
theorem c3_decideStatus_rules_witness :
    decideStatus "pending" (.num 3) .undefined = "paid" ∧
      decideStatus "pending" (.num 0) (.num (-7)) = "paid" ∧
      decideStatus "pending" (.num 0) (.num 5) = "pending" :=
  ⟨c3_decideStatus_rules.2.1 "pending" _ _ (by norm_num [jsToNum]),
   c3_decideStatus_rules.2.2.2.1 "pending" _ _ (-7) (by norm_num [jsToNum])
     (by norm_num [apValue, jsToNum]) (by norm_num) (by norm_num [jsToNum]),
   by
     have h := c3_decideStatus_rules.2.2.2.2.1 "pending" (.num 0) (.num 5) 5
       (by norm_num [jsToNum]) (by norm_num [apValue, jsToNum]) (by norm_num)
       (by norm_num [jsToNum])
     simpa using h⟩

/-- C6: retention is zero for hiring-service work in both calculators
regardless of any supplied rate, and otherwise the subcontractor
calculator uses a numeric supplied `retention_rate`, defaulting to
`0.05`, with `retention = round2 (gross * rate)`. -/
theorem c6_retention_rule :
    (∀ v : Values, isHiringServiceVal v.workType = true →
      (calculateEntryTotals v).retention = 0) ∧
    (∀ v : Values, (calculateHiringEntryTotals v).retention = 0) ∧
    (∀ (v : Values) (q : ℚ), isHiringServiceVal v.workType = false →
      v.retention_rate = .num q →
      (calculateEntryTotals v).retention = round2 (round2 (parseNumber v.gross_amount) * q)) ∧
    (∀ v : Values, isHiringServiceVal v.workType = false →
      (∀ q : ℚ, v.retention_rate ≠ .num q) →
      (calculateEntryTotals v).retention =
        round2 (round2 (parseNumber v.gross_amount) * 0.05)) := by
  refine ⟨?_, ?_, ?_, ?_⟩
  · intro v h
    simp [calculateEntryTotals, h, round2_zero]
  · intro v
    rfl
  · intro v q hw hr
    simp [calculateEntryTotals, hw, hr]
  · intro v hw hnum
    rcases hv : v.retention_rate with _ | _ | q | s
    · simp [calculateEntryTotals, hw, hv]
    · simp [calculateEntryTotals, hw, hv]
    · exact absurd hv (hnum q)
    · simp [calculateEntryTotals, hw, hv]

/-- C6 witness: the retention rules applied at concrete inputs. -/
theorem c6_retention_rule_witness :
    (calculateEntryTotals { c1vals with workType := .str "Hiring Service", retention_rate := .num 0.1 }).retention = 0 ∧
    (calculateEntryTotals { c1vals with retention_rate := .num 0.1 }).retention = 10000 ∧
    (calculateEntryTotals c1vals).retention = 5000 := by
  refine ⟨c6_retention_rule.1 _ (by decide), ?_, ?_⟩
  · have h := c6_retention_rule.2.2.1 { c1vals with retention_rate := .num 0.1 } 0.1
      (by decide) rfl
    rw [h]
    norm_num [c1vals, parseNumber, round2]
  · have h := c6_retention_rule.2.2.2 c1vals (by decide) (by intro q hq; cases hq)
    rw [h]
    norm_num [c1vals, parseNumber, round2]

/-- C7 counterexample: the hiring calculator defaults a zero-normalized
TDS rate to 2 percent inside the calculator: with gross 100000 and a
supplied TDS rate of 0 it computes TDS 2000, not 0 (the supplied rate
normalizes to 0). -/
theorem c7_hiring_default_counterexample :
    normalizeRateHS c7vals.tds_rate = 0 ∧
      (calculateHiringEntryTotals c7vals).tds = 2000 ∧
      (calculateHiringEntryTotals c7vals).tds ≠ 0 := by
  refine ⟨by norm_num [c7vals, normalizeRateHS, jsToNum], ?_, ?_⟩
  · norm_num [calculateHiringEntryTotals, c7vals, parseNumber, normalizeRateHS,
      jsToNum, round2]
  · norm_num [calculateHiringEntryTotals, c7vals, parseNumber, normalizeRateHS,
      jsToNum, round2]

/-- C7 amended: the subcontractor calculator uses the normalized rates
exactly (a zero-normalized GST or TDS rate yields 0), whereas the
hiring calculator substitutes the defaults 18 percent and 2 percent
whenever the normalized rate is 0; rate defaulting is therefore inside
the hiring calculator, not a purely form-level concern. -/
theorem c7_rate_use :
    (∀ v : Values, normalizeRate v.tds_rate = 0 → (calculateEntryTotals v).tds = 0) ∧
    (∀ v : Values, normalizeRate v.gst_rate = 0 → (calculateEntryTotals v).gst_amount = 0) ∧
    (∀ v : Values, normalizeRateHS v.tds_rate = 0 →
      (calculateHiringEntryTotals v).tds =
        round2 (round2 (parseNumber v.gross_amount) * 0.02)) ∧
    (∀ v : Values, normalizeRateHS v.gst_rate = 0 →
      (calculateHiringEntryTotals v).gst_amount =
        round2 (round2 (parseNumber v.gross_amount) * 0.18)) := by
  refine ⟨?_, ?_, ?_, ?_⟩
  · intro v h
    simp [calculateEntryTotals, h, round2_zero]
  · intro v h
    simp [calculateEntryTotals, h, round2_zero]
  · intro v h
    simp [calculateHiringEntryTotals, h]
  · intro v h
    simp [calculateHiringEntryTotals, h]

/-- C7 witness: the rate-use rules applied at concrete inputs. -/
theorem c7_rate_use_witness :
    (calculateEntryTotals { c1vals with tds_rate := .num 0 }).tds = 0 ∧
      (calculateHiringEntryTotals c7vals).tds = 2000 := by
  constructor
  · exact c7_rate_use.1 _ (by norm_num [c1vals, normalizeRate])
  · have h := c7_rate_use.2.2.1 c7vals (by norm_num [c7vals, normalizeRateHS, jsToNum])
    rw [h]
    norm_num [c7vals, parseNumber, round2]

/-- C8 counterexample: the hiring slice's `normalizeRate` does not
clean percent signs: `"18%"` coerces to `NaN` and normalizes to `0`
there, while the subcontractor implementation cleans and yields
`0.18` — the two implementations disagree on the claim's own
example. -/
theorem c8_normalizeRate_counterexample :
    normalizeRateHS (.str "18%") = 0 ∧
      normalizeRate (.str "18%") = 18 / 100 ∧
      normalizeRateHS (.str "18%") ≠ normalizeRate (.str "18%") := by
  have h18 : digitsVal ['1', '8'] = 18 := by decide
  have h0 : digitsVal [] = 0 := by decide
  refine ⟨?_, ?_, ?_⟩ <;>
    norm_num +decide [normalizeRate, normalizeRateHS, jsToNum, jsStrToNum,
      parseDecCore, parseExpTail, jsTrim, dropWs, h18, h0, pow10]

/-- C8 amended: both implementations share the branch heuristic
(empty/zero/non-finite to 0, values at least 1 divided by 100, smaller
values unchanged), but only the subcontractor implementation strips
`%`, commas and whitespace before parsing; the hiring one applies
`Number` directly, so `"18%"` normalizes to 0.18 only in the
subcontractor slice and to 0 in the hiring slice. -/
theorem c8_normalizeRate_rules :
    (∀ q : ℚ, q ≠ 0 → 1 ≤ q →
      normalizeRate (.num q) = q / 100 ∧ normalizeRateHS (.num q) = q / 100) ∧
    (∀ q : ℚ, q ≠ 0 → q < 1 →
      normalizeRate (.num q) = q ∧ normalizeRateHS (.num q) = q) ∧
    normalizeRate (.num 0) = 0 ∧ normalizeRateHS (.num 0) = 0 ∧
    normalizeRate .undefined = 0 ∧ normalizeRate .null = 0 ∧
    normalizeRate (.str "") = 0 ∧
    normalizeRateHS .undefined = 0 ∧ normalizeRateHS .null = 0 ∧
    normalizeRateHS (.str "") = 0 ∧
    normalizeRate (.str "18%") = 18 / 100 ∧
    normalizeRate (.str " 5 ") = 5 / 100 ∧
    normalizeRate (.str "0.5") = 1 / 2 ∧
    normalizeRateHS (.str "18%") = 0 ∧
    normalizeRateHS (.str " 5 ") = 5 / 100 := by
  refine ⟨?_, ?_, ?_, ?_, ?_, ?_, ?_, ?_, ?_, ?_, ?_, ?_, ?_, ?_, ?_⟩
  · intro q hne hge
    constructor <;> simp [normalizeRate, normalizeRateHS, jsToNum, hne, hge]
  · intro q hne hlt
    constructor <;> simp [normalizeRate, normalizeRateHS, jsToNum, hne, not_le.mpr hlt]
  all_goals
    norm_num +decide [normalizeRate, normalizeRateHS, jsToNum, jsStrToNum,
      parseDecCore, parseExpTail, jsTrim, dropWs, pow10,
      (by decide : digitsVal ['1', '8'] = 18), (by decide : digitsVal ['5'] = 5),
      (by decide : digitsVal ['0'] = 0), (by decide : digitsVal [] = 0)]

/-- C8 witness: the normalization rules applied at concrete inputs. -/
theorem c8_normalizeRate_rules_witness :
    normalizeRate (.num 5) = 5 / 100 ∧ normalizeRate (.num (1 / 2)) = 1 / 2 :=
  ⟨(c8_normalizeRate_rules.1 5 (by norm_num) (by norm_num)).1,
   (c8_normalizeRate_rules.2.1 (1 / 2) (by norm_num) (by norm_num)).1⟩

/-! Claim theorems: candidate ordering and period replay. -/

/-- C4 counterexample: with entries of payables [100, 200] and invoice
dates [February, January] (February listed first), applying 150
through the subcontractor reducer leaves the January entry at payables
50 (not 0) and the February entry at 100 (not 50): funds go oldest
first, so the 200-payable January entry absorbs the whole 150; and the
hiring reducer produces a different outcome ([0, 150]) because it does
not sort at all. -/
theorem c4_ordering_counterexample :
    (applySC orderState orderPayload).entries.map Entry.payables = [100, 50] ∧
      (applySC orderState orderPayload).entries.map Entry.payables ≠ [50, 0] ∧
      (applyHS orderStateHS orderPayloadHS).entries.map Entry.payables = [0, 150] := by
  refine ⟨?_, ?_, ?_⟩
  · norm_num +decide [applySC, orderState, orderPayload, febEntry, janEntry, baseEntry,
      matchesSC, entryIdOf, sortKey, applyWalk, applyUpdates, round2,
      List.enum, List.enumFrom, List.insertionSort, List.orderedInsert]
  · norm_num +decide [applySC, orderState, orderPayload, febEntry, janEntry, baseEntry,
      matchesSC, entryIdOf, sortKey, applyWalk, applyUpdates, round2,
      List.enum, List.enumFrom, List.insertionSort, List.orderedInsert]
  · norm_num +decide [applyHS, orderStateHS, orderPayloadHS, febEntryHS, janEntryHS,
      febEntry, janEntry, baseEntry, matchesHS, startsWithHS, entryIdOf,
      applyWalk, applyUpdates, round2, List.enum, List.enumFrom]

/-- C4 amended: only the subcontractor reducers order candidates by
invoice date (apply oldest first, reverse newest first, unparseable
dates keyed 0 and so first); the hiring reducers walk candidates in
state order.  Concretely: applying 150 to subcontractor entries with
payables [100, 200] and dates [February, January] pays the January
entry down to 50 and leaves February at 100; the same shape through
the hiring reducer drains the first-listed February entry instead; an
undated entry listed second still receives funds first in the
subcontractor reducer; and a subcontractor reverse of 150 undoes the
newer February entry's part_paid before January's. -/
theorem c4_ordering_rules :
    (applySC orderState orderPayload).entries.map Entry.payables = [100, 50] ∧
      (applyHS orderStateHS orderPayloadHS).entries.map Entry.payables = [0, 150] ∧
      (applySC undatedState undatedPayload).entries.map Entry.payables = [300, 10] ∧
      (reverseSC revOrderState revOrderPayload).entries.map Entry.part_paid = [0, 150] := by
  refine ⟨?_, ?_, ?_, ?_⟩
  · norm_num +decide [applySC, orderState, orderPayload, febEntry, janEntry, baseEntry,
      matchesSC, entryIdOf, sortKey, applyWalk, applyUpdates, round2,
      List.enum, List.enumFrom, List.insertionSort, List.orderedInsert]
  · norm_num +decide [applyHS, orderStateHS, orderPayloadHS, febEntryHS, janEntryHS,
      febEntry, janEntry, baseEntry, matchesHS, startsWithHS, entryIdOf,
      applyWalk, applyUpdates, round2, List.enum, List.enumFrom]
  · norm_num +decide [applySC, undatedState, undatedPayload, undatedEntry, baseEntry,
      matchesSC, entryIdOf, sortKey, applyWalk, applyUpdates, round2,
      List.enum, List.enumFrom, List.insertionSort, List.orderedInsert]
  · norm_num +decide [reverseSC, revOrderState, revOrderPayload, revFebEntry, revJanEntry,
      baseEntry, matchesSC, entryIdOf, sortKey, reverseWalk, applyUpdates, round2,
      List.enum, List.enumFrom, List.insertionSort, List.orderedInsert]

/-- Distribution of the replay dispatch fold: appending one payload per
selected record whose coerced amount is nonzero equals a filter of the
selection followed by a map. -/
theorem replay_ops_fold (y m : ℤ) (sel : List Payment) (acc : List PaymentPayload) :
    sel.foldl
      (fun acc p =>
        if (jsToNum p.amount).getD 0 = 0 then acc
        else acc ++ [replayPayload y m ((jsToNum p.amount).getD 0) p])
      acc =
    acc ++ (sel.filter (fun p => (jsToNum p.amount).getD 0 != 0)).map
      (fun p => replayPayload y m ((jsToNum p.amount).getD 0) p) := by
  induction sel generalizing acc with
  | nil => simp
  | cons p rest ih =>
    by_cases h : (jsToNum p.amount).getD 0 = 0
    · simp [h, ih]
    · simp [h, ih, bne_iff_ne]

/-- C9 counterexample: a paid July 2025 ledger record with amount 0 is
selected by the replay for (2025, 7) yet dispatches no apply action:
the claim's one-apply-per-selected-payment fails. -/
theorem c9_replay_counterexample :
    (replayPaidPaymentsForPeriod 2025 7 [zeroAmountPayment]).1 = [zeroAmountPayment] ∧
      (replayPaidPaymentsForPeriod 2025 7 [zeroAmountPayment]).2 = [] := by
  have hpm : paidMatches 2025 7 zeroAmountPayment = true := by
    norm_num +decide [paidMatches, parseMonthLabel, zeroAmountPayment, splitWs, jsTrim,
      dropWs, monthNames, jsStrToNum, parseDecCore, parseExpTail, pow10, beq_iff_eq,
      (by decide : digitsVal ['2', '0', '2', '5'] = 2025), (by decide : digitsVal [] = 0)]
  constructor
  · simp only [replayPaidPaymentsForPeriod]
    rw [if_neg (by norm_num)]
    simp [List.filter_cons, hpm]
  · simp only [replayPaidPaymentsForPeriod]
    rw [if_neg (by norm_num), replay_ops_fold]
    simp only [List.filter_cons, hpm, if_true]
    simp [zeroAmountPayment, jsToNum]

/-- C9 amended: for a truthy period, replay selects exactly the paid
ledger records whose parsed label matches the period, and dispatches
one apply payload — carrying the record's vendor code, coerced amount
and truthy entry id — per selected record whose coerced amount is
nonzero; zero or unparseable amounts are selected but dispatch
nothing. -/
theorem c9_replay_selection :
    ∀ (y m : ℤ) (ledger : List Payment), y ≠ 0 → m ≠ 0 →
      (replayPaidPaymentsForPeriod y m ledger).1 = ledger.filter (paidMatches y m) ∧
      (replayPaidPaymentsForPeriod y m ledger).2 =
        ((ledger.filter (paidMatches y m)).filter
          (fun p => (jsToNum p.amount).getD 0 != 0)).map
          (fun p => replayPayload y m ((jsToNum p.amount).getD 0) p) := by
  intro y m ledger hy hm
  simp only [replayPaidPaymentsForPeriod]
  rw [if_neg (by tauto)]
  refine ⟨rfl, ?_⟩
  rw [replay_ops_fold]
  simp

/-- C9 witness: the selection rule applied to the empty ledger. -/
theorem c9_replay_selection_witness :
    (replayPaidPaymentsForPeriod 2025 7 []).1 = [] ∧
      (replayPaidPaymentsForPeriod 2025 7 []).2 = [] := by
  have h := c9_replay_selection 2025 7 [] (by norm_num) (by norm_num)
  simpa using h

/-! Structural shape lemmas for the four reducers: each action either
leaves the state untouched or rewrites the entries through
`applyUpdates` with updates whose indices point at matching entries. -/

theorem applySC_shape (st : SliceState) (p : PaymentPayload) :
    applySC st p = st ∨
    ∃ vc y m, p.vendorCode = some vc ∧ p.year = some y ∧ p.month = some m ∧
      0 < p.amount ∧
      ∃ ups, applySC st p = { st with entries := applyUpdates st.entries ups } ∧
        ∀ u ∈ ups, ∃ e, st.entries[u.1]? = some e ∧ matchesSC vc y m e = true ∧
          (0 ≤ e.part_paid → 0 ≤ e.payables → 0 ≤ u.2.1 ∧ 0 ≤ u.2.2) := by
  rcases hv : p.vendorCode with _ | vc
  · left; simp [applySC, hv]
  rcases hy : p.year with _ | y
  · left; simp [applySC, hv, hy]
  rcases hm : p.month with _ | m
  · left; simp [applySC, hv, hy, hm]
  by_cases hg : vc = "" ∨ y = 0 ∨ m = 0 ∨ p.amount ≤ 0
  · left; simp [applySC, hv, hy, hm, hg]
  have hamt : 0 < p.amount := by
    push_neg at hg
    exact hg.2.2.2
  by_cases hemp :
      (st.entries.enum.filter (fun ie => matchesSC vc y m ie.2)).isEmpty
  · left; simp [applySC, hv, hy, hm, hg, hemp]
  have hsortmem : ∀ x ∈ List.insertionSort
      (fun a b : ℕ × Entry => sortKey a.2 ≤ sortKey b.2)
      (st.entries.enum.filter (fun ie => matchesSC vc y m ie.2)),
      st.entries[x.1]? = some x.2 ∧ matchesSC vc y m x.2 = true := by
    intro x hx
    have hx2 := (List.mem_insertionSort _).mp hx
    have hx3 := List.mem_filter.mp hx2
    exact ⟨List.mem_enum_iff_getElem?.mp hx3.1, hx3.2⟩
  rcases heid : entryIdOf p with _ | eid
  · right
    refine ⟨vc, y, m, rfl, rfl, rfl, hamt,
      applyWalk (List.insertionSort (fun a b : ℕ × Entry => sortKey a.2 ≤ sortKey b.2)
        (st.entries.enum.filter (fun ie => matchesSC vc y m ie.2))) p.amount, ?_, ?_⟩
    · simp [applySC, hv, hy, hm, hg, hemp, heid]
    · intro u hu
      obtain ⟨x, hxmem, hxi, hnn⟩ := applyWalk_bounds hu
      obtain ⟨hget, hmat⟩ := hsortmem x hxmem
      exact ⟨x.2, hxi ▸ hget, hmat, hnn⟩
  rcases hfind : (List.insertionSort
      (fun a b : ℕ × Entry => sortKey a.2 ≤ sortKey b.2)
      (st.entries.enum.filter (fun ie => matchesSC vc y m ie.2))).find?
      (fun ie => ie.2.id == eid) with _ | it
  · left; simp [applySC, hv, hy, hm, hg, hemp, heid, hfind]
  · right
    obtain ⟨hget, hmat⟩ := hsortmem it (List.mem_of_find?_eq_some hfind)
    refine ⟨vc, y, m, rfl, rfl, rfl, hamt,
      [(it.1, round2 (it.2.part_paid + min p.amount it.2.payables),
        round2 (max 0 (it.2.payables - min p.amount it.2.payables)))], ?_, ?_⟩
    · simp [applySC, hv, hy, hm, hg, hemp, heid, hfind]
    · intro u hu
      rw [List.mem_singleton] at hu
      subst hu
      refine ⟨it.2, hget, hmat, ?_⟩
      intro hpp hpay
      have happ : 0 ≤ min p.amount it.2.payables := le_min (le_of_lt hamt) hpay
      exact ⟨round2_nonneg (by linarith), round2_nonneg (le_max_left 0 _)⟩

theorem reverseSC_shape (st : SliceState) (p : PaymentPayload) :
    reverseSC st p = st ∨
    ∃ vc y m, p.vendorCode = some vc ∧ p.year = some y ∧ p.month = some m ∧
      0 < p.amount ∧
      ∃ ups, reverseSC st p = { st with entries := applyUpdates st.entries ups } ∧
        ∀ u ∈ ups, ∃ e, st.entries[u.1]? = some e ∧ matchesSC vc y m e = true ∧
          (0 ≤ e.part_paid → 0 ≤ e.payables → 0 ≤ u.2.1 ∧ 0 ≤ u.2.2) := by
  rcases hv : p.vendorCode with _ | vc
  · left; simp [reverseSC, hv]
  rcases hy : p.year with _ | y
  · left; simp [reverseSC, hv, hy]
  rcases hm : p.month with _ | m
  · left; simp [reverseSC, hv, hy, hm]
  by_cases hg : vc = "" ∨ y = 0 ∨ m = 0 ∨ p.amount ≤ 0
  · left; simp [reverseSC, hv, hy, hm, hg]
  have hamt : 0 < p.amount := by
    push_neg at hg
    exact hg.2.2.2
  by_cases hemp :
      (st.entries.enum.filter (fun ie => matchesSC vc y m ie.2)).isEmpty
  · left; simp [reverseSC, hv, hy, hm, hg, hemp]
  have hsortmem : ∀ x ∈ List.insertionSort
      (fun a b : ℕ × Entry => sortKey b.2 ≤ sortKey a.2)
      (st.entries.enum.filter (fun ie => matchesSC vc y m ie.2)),
      st.entries[x.1]? = some x.2 ∧ matchesSC vc y m x.2 = true := by
    intro x hx
    have hx2 := (List.mem_insertionSort _).mp hx
    have hx3 := List.mem_filter.mp hx2
    exact ⟨List.mem_enum_iff_getElem?.mp hx3.1, hx3.2⟩
  rcases heid : entryIdOf p with _ | eid
  · right
    refine ⟨vc, y, m, rfl, rfl, rfl, hamt,
      reverseWalk (List.insertionSort (fun a b : ℕ × Entry => sortKey b.2 ≤ sortKey a.2)
        (st.entries.enum.filter (fun ie => matchesSC vc y m ie.2))) p.amount, ?_, ?_⟩
    · simp [reverseSC, hv, hy, hm, hg, hemp, heid]
    · intro u hu
      obtain ⟨x, hxmem, hxi, hnn⟩ := reverseWalk_bounds hu
      obtain ⟨hget, hmat⟩ := hsortmem x hxmem
      exact ⟨x.2, hxi ▸ hget, hmat, hnn⟩
  rcases hfind : (List.insertionSort
      (fun a b : ℕ × Entry => sortKey b.2 ≤ sortKey a.2)
      (st.entries.enum.filter (fun ie => matchesSC vc y m ie.2))).find?
      (fun ie => ie.2.id == eid) with _ | it
  · left; simp [reverseSC, hv, hy, hm, hg, hemp, heid, hfind]
  · right
    obtain ⟨hget, hmat⟩ := hsortmem it (List.mem_of_find?_eq_some hfind)
    refine ⟨vc, y, m, rfl, rfl, rfl, hamt,
      [(it.1, round2 (max 0 (it.2.part_paid - min p.amount it.2.part_paid)),
        round2 (it.2.payables + min p.amount it.2.part_paid))], ?_, ?_⟩
    · simp [reverseSC, hv, hy, hm, hg, hemp, heid, hfind]
    · intro u hu
      rw [List.mem_singleton] at hu
      subst hu
      refine ⟨it.2, hget, hmat, ?_⟩
      intro hpp hpay
      have hundo : 0 ≤ min p.amount it.2.part_paid := le_min (le_of_lt hamt) hpp
      exact ⟨round2_nonneg (le_max_left 0 _), round2_nonneg (by linarith)⟩

theorem applyHS_shape (st : SliceState) (p : PaymentPayload) :
    applyHS st p = st ∨
    ∃ vc y m, p.vendorCode = some vc ∧ p.year = some y ∧ p.month = some m ∧
      ∃ ups, applyHS st p = { st with entries := applyUpdates st.entries ups } ∧
        ∀ u ∈ ups, ∃ e, st.entries[u.1]? = some e ∧ matchesHS vc y m e = true := by
  rcases hv : p.vendorCode with _ | vc
  · left; simp [applyHS, hv]
  rcases hy : p.year with _ | y
  · left; simp [applyHS, hv, hy]
  rcases hm : p.month with _ | m
  · left; simp [applyHS, hv, hy, hm]
  by_cases hg : vc = "" ∨ y = 0 ∨ m = 0 ∨ p.amount = 0
  · left; simp [applyHS, hv, hy, hm, hg]
  by_cases hhs : startsWithHS vc
  case neg => left; simp [applyHS, hv, hy, hm, hg, hhs]
  by_cases hemp :
      (st.entries.enum.filter (fun ie => matchesHS vc y m ie.2)).isEmpty
  · left; simp [applyHS, hv, hy, hm, hg, hhs, hemp]
  have hcmem : ∀ x ∈ st.entries.enum.filter (fun ie => matchesHS vc y m ie.2),
      st.entries[x.1]? = some x.2 ∧ matchesHS vc y m x.2 = true := by
    intro x hx
    have hx3 := List.mem_filter.mp hx
    exact ⟨List.mem_enum_iff_getElem?.mp hx3.1, hx3.2⟩
  rcases heid : entryIdOf p with _ | eid
  · right
    refine ⟨vc, y, m, rfl, rfl, rfl,
      applyWalk (st.entries.enum.filter (fun ie => matchesHS vc y m ie.2)) p.amount, ?_, ?_⟩
    · simp [applyHS, hv, hy, hm, hg, hhs, hemp, heid]
    · intro u hu
      obtain ⟨x, hxmem, hxi, _⟩ := applyWalk_bounds hu
      obtain ⟨hget, hmat⟩ := hcmem x hxmem
      exact ⟨x.2, hxi ▸ hget, hmat⟩
  rcases hfind : (st.entries.enum.filter (fun ie => matchesHS vc y m ie.2)).find?
      (fun ie => ie.2.id == eid) with _ | it
  · left; simp [applyHS, hv, hy, hm, hg, hhs, hemp, heid, hfind]
  · right
    obtain ⟨hget, hmat⟩ := hcmem it (List.mem_of_find?_eq_some hfind)
    refine ⟨vc, y, m, rfl, rfl, rfl,
      [(it.1, round2 (it.2.part_paid + min p.amount it.2.payables),
        round2 (max 0 (it.2.payables - min p.amount it.2.payables)))], ?_, ?_⟩
    · simp [applyHS, hv, hy, hm, hg, hhs, hemp, heid, hfind]
    · intro u hu
      rw [List.mem_singleton] at hu
      subst hu
      exact ⟨it.2, hget, hmat⟩

theorem reverseHS_shape (st : SliceState) (p : PaymentPayload) :
    reverseHS st p = st ∨
    ∃ vc y m, p.vendorCode = some vc ∧ p.year = some y ∧ p.month = some m ∧
      ∃ ups, reverseHS st p = { st with entries := applyUpdates st.entries ups } ∧
        ∀ u ∈ ups, ∃ e, st.entries[u.1]? = some e ∧ matchesHS vc y m e = true := by
  rcases hv : p.vendorCode with _ | vc
  · left; simp [reverseHS, hv]
  rcases hy : p.year with _ | y
  · left; simp [reverseHS, hv, hy]
  rcases hm : p.month with _ | m
  · left; simp [reverseHS, hv, hy, hm]
  by_cases hg : vc = "" ∨ y = 0 ∨ m = 0 ∨ p.amount = 0
  · left; simp [reverseHS, hv, hy, hm, hg]
  by_cases hhs : startsWithHS vc
  case neg => left; simp [reverseHS, hv, hy, hm, hg, hhs]
  by_cases hemp :
      (st.entries.enum.filter (fun ie => matchesHS vc y m ie.2)).isEmpty
  · left; simp [reverseHS, hv, hy, hm, hg, hhs, hemp]
  have hcmem : ∀ x ∈ st.entries.enum.filter (fun ie => matchesHS vc y m ie.2),
      st.entries[x.1]? = some x.2 ∧ matchesHS vc y m x.2 = true := by
    intro x hx
    have hx3 := List.mem_filter.mp hx
    exact ⟨List.mem_enum_iff_getElem?.mp hx3.1, hx3.2⟩
  rcases heid : entryIdOf p with _ | eid
  · right
    refine ⟨vc, y, m, rfl, rfl, rfl,
      reverseWalk (st.entries.enum.filter (fun ie => matchesHS vc y m ie.2)) p.amount, ?_, ?_⟩
    · simp [reverseHS, hv, hy, hm, hg, hhs, hemp, heid]
    · intro u hu
      obtain ⟨x, hxmem, hxi, _⟩ := reverseWalk_bounds hu
      obtain ⟨hget, hmat⟩ := hcmem x hxmem
      exact ⟨x.2, hxi ▸ hget, hmat⟩
  rcases hfind : (st.entries.enum.filter (fun ie => matchesHS vc y m ie.2)).find?
      (fun ie => ie.2.id == eid) with _ | it
  · left; simp [reverseHS, hv, hy, hm, hg, hhs, hemp, heid, hfind]
  · right
    obtain ⟨hget, hmat⟩ := hcmem it (List.mem_of_find?_eq_some hfind)
    refine ⟨vc, y, m, rfl, rfl, rfl,
      [(it.1, round2 (max 0 (it.2.part_paid - min p.amount it.2.part_paid)),
        round2 (it.2.payables + min p.amount it.2.part_paid))], ?_, ?_⟩
    · simp [reverseHS, hv, hy, hm, hg, hhs, hemp, heid, hfind]
    · intro u hu
      rw [List.mem_singleton] at hu
      subst hu
      exact ⟨it.2, hget, hmat⟩

/-! Preservation of non-negative payment fields by the subcontractor
reducers. -/

theorem applySC_preserves_nonneg {st : SliceState} {p : PaymentPayload}
    (h : ∀ e ∈ st.entries, 0 ≤ e.part_paid ∧ 0 ≤ e.payables) :
    ∀ e ∈ (applySC st p).entries, 0 ≤ e.part_paid ∧ 0 ≤ e.payables := by
  rcases applySC_shape st p with heq | ⟨vc, y, m, _, _, _, _, ups, heq, hups⟩
  · rw [heq]; exact h
  · rw [heq]
    intro er hmem
    obtain ⟨i, e, hget, hcase⟩ := mem_applyUpdates hmem
    have he : e ∈ st.entries := List.getElem?_mem hget
    rcases hcase with rfl | ⟨u, hu, hui, rfl⟩
    · exact h _ he
    · obtain ⟨e2, hget2, _, hnn⟩ := hups u hu
      rw [hui, hget] at hget2
      obtain rfl := Option.some_inj.mp hget2
      exact hnn (h _ he).1 (h _ he).2

theorem reverseSC_preserves_nonneg {st : SliceState} {p : PaymentPayload}
    (h : ∀ e ∈ st.entries, 0 ≤ e.part_paid ∧ 0 ≤ e.payables) :
    ∀ e ∈ (reverseSC st p).entries, 0 ≤ e.part_paid ∧ 0 ≤ e.payables := by
  rcases reverseSC_shape st p with heq | ⟨vc, y, m, _, _, _, _, ups, heq, hups⟩
  · rw [heq]; exact h
  · rw [heq]
    intro er hmem
    obtain ⟨i, e, hget, hcase⟩ := mem_applyUpdates hmem
    have he : e ∈ st.entries := List.getElem?_mem hget
    rcases hcase with rfl | ⟨u, hu, hui, rfl⟩
    · exact h _ he
    · obtain ⟨e2, hget2, _, hnn⟩ := hups u hu
      rw [hui, hget] at hget2
      obtain rfl := Option.some_inj.mp hget2
      exact hnn (h _ he).1 (h _ he).2

/-- C5: across any sequence of subcontractor apply/reverse actions
from entries with non-negative `part_paid` and `payables`, both fields
stay non-negative (apply floors `payables` at 0, reverse floors
`part_paid` at 0); and an apply of 500 against the sole matching entry
with payables 300 adds exactly 300 to `part_paid`, zeroes `payables`,
and the excess 200 has no further effect on the state. -/
theorem c5_nonneg_invariant :
    (∀ (st : SliceState) (ops : List PayOp),
      (∀ e ∈ st.entries, 0 ≤ e.part_paid ∧ 0 ≤ e.payables) →
      ∀ e ∈ (runOpsSC st ops).entries, 0 ≤ e.part_paid ∧ 0 ≤ e.payables) ∧
    applySC overState overPayload =
      { overState with entries := [{ baseEntry with part_paid := 300, payables := 0 }] } := by
  constructor
  · intro st ops
    induction ops generalizing st with
    | nil => intro h; exact h
    | cons op rest ih =>
      intro h
      cases op with
      | apply p => exact ih (applySC st p) (applySC_preserves_nonneg h)
      | reverse p => exact ih (reverseSC st p) (reverseSC_preserves_nonneg h)
  · norm_num +decide [applySC, overState, overPayload, baseEntry, matchesSC, entryIdOf,
      sortKey, applyWalk, applyUpdates, round2, List.enum, List.enumFrom,
      List.insertionSort, List.orderedInsert, SliceState.mk.injEq, Entry.mk.injEq]

/-- C5 witness: the invariant applied to the overpayment scenario. -/
theorem c5_nonneg_invariant_witness :
    0 ≤ ((runOpsSC overState [PayOp.apply overPayload]).entries.headD baseEntry).part_paid := by
  have hrun : runOpsSC overState [PayOp.apply overPayload] = applySC overState overPayload := rfl
  have hinv := c5_nonneg_invariant.1 overState [PayOp.apply overPayload]
    (by
      intro e he
      simp only [overState, List.mem_singleton] at he
      subst he
      norm_num [baseEntry])
  refine (hinv _ ?_).1
  rw [hrun, c5_nonneg_invariant.2]
  simp

/-! No-op and frame lemmas for the claim that apply/reverse touch
nothing but matched entries' payment fields. -/

theorem framePreserved_of (f : SliceState → PaymentPayload → SliceState)
    (hf : ∀ st p, f st p = st ∨
      ∃ ups, f st p = { st with entries := applyUpdates st.entries ups }) :
    framePreserved f := by
  intro st p
  rcases hf st p with heq | ⟨ups, heq⟩
  · rw [heq]
    refine ⟨rfl, rfl, rfl, rfl, rfl, ?_⟩
    intro i e er h1 h2
    rw [h1] at h2
    obtain rfl := Option.some_inj.mp h2
    simp [frameEq]
  · rw [heq]
    refine ⟨rfl, rfl, rfl, rfl, applyUpdates_length _ _, ?_⟩
    intro i e er h1 h2
    rw [applyUpdates_getElem, h1] at h2
    rcases hfind : ups.find? (fun u => u.1 == i) with _ | u <;>
      rw [hfind] at h2 <;>
      simp only [Option.map_some'] at h2 <;>
      obtain rfl := Option.some_inj.mp h2 <;>
      simp [frameEq]

theorem untouched_of_updates {st : SliceState} {ups : List (ℕ × ℚ × ℚ)}
    {M : Entry → Bool} {i : ℕ} {e : Entry}
    (hups : ∀ u ∈ ups, ∃ e2, st.entries[u.1]? = some e2 ∧ M e2 = true)
    (hget : st.entries[i]? = some e) (hnm : M e = false) :
    (applyUpdates st.entries ups)[i]? = some e := by
  have hfind : ups.find? (fun u => u.1 == i) = none := by
    rw [List.find?_eq_none]
    intro u hu
    simp only [beq_iff_eq]
    intro hui
    obtain ⟨e2, hget2, hmat⟩ := hups u hu
    rw [hui, hget] at hget2
    obtain rfl := Option.some_inj.mp hget2
    rw [hnm] at hmat
    cases hmat
  rw [applyUpdates_getElem, hget, hfind]
  rfl

theorem applySC_noop_guard (st : SliceState) (p : PaymentPayload)
    (h : truthyStr p.vendorCode = false ∨ truthyInt p.year = false ∨
      truthyInt p.month = false ∨ p.amount ≤ 0) :
    applySC st p = st := by
  rcases hv : p.vendorCode with _ | vc
  · simp [applySC, hv]
  rcases hy : p.year with _ | y
  · simp [applySC, hv, hy]
  rcases hm : p.month with _ | m
  · simp [applySC, hv, hy, hm]
  rw [hv, hy, hm] at h
  have hg : vc = "" ∨ y = 0 ∨ m = 0 ∨ p.amount ≤ 0 := by
    rcases h with h | h | h | h
    · left; simpa [truthyStr] using h
    · right; left; simpa [truthyInt] using h
    · right; right; left; simpa [truthyInt] using h
    · right; right; right; exact h
  simp [applySC, hv, hy, hm, hg]

theorem reverseSC_noop_guard (st : SliceState) (p : PaymentPayload)
    (h : truthyStr p.vendorCode = false ∨ truthyInt p.year = false ∨
      truthyInt p.month = false ∨ p.amount ≤ 0) :
    reverseSC st p = st := by
  rcases hv : p.vendorCode with _ | vc
  · simp [reverseSC, hv]
  rcases hy : p.year with _ | y
  · simp [reverseSC, hv, hy]
  rcases hm : p.month with _ | m
  · simp [reverseSC, hv, hy, hm]
  rw [hv, hy, hm] at h
  have hg : vc = "" ∨ y = 0 ∨ m = 0 ∨ p.amount ≤ 0 := by
    rcases h with h | h | h | h
    · left; simpa [truthyStr] using h
    · right; left; simpa [truthyInt] using h
    · right; right; left; simpa [truthyInt] using h
    · right; right; right; exact h
  simp [reverseSC, hv, hy, hm, hg]

theorem applyHS_noop_guard (st : SliceState) (p : PaymentPayload)
    (h : truthyStr p.vendorCode = false ∨ truthyInt p.year = false ∨
      truthyInt p.month = false ∨ p.amount = 0) :
    applyHS st p = st := by
  rcases hv : p.vendorCode with _ | vc
  · simp [applyHS, hv]
  rcases hy : p.year with _ | y
  · simp [applyHS, hv, hy]
  rcases hm : p.month with _ | m
  · simp [applyHS, hv, hy, hm]
  rw [hv, hy, hm] at h
  have hg : vc = "" ∨ y = 0 ∨ m = 0 ∨ p.amount = 0 := by
    rcases h with h | h | h | h
    · left; simpa [truthyStr] using h
    · right; left; simpa [truthyInt] using h
    · right; right; left; simpa [truthyInt] using h
    · right; right; right; exact h
  simp [applyHS, hv, hy, hm, hg]

theorem reverseHS_noop_guard (st : SliceState) (p : PaymentPayload)
    (h : truthyStr p.vendorCode = false ∨ truthyInt p.year = false ∨
      truthyInt p.month = false ∨ p.amount = 0) :
    reverseHS st p = st := by
  rcases hv : p.vendorCode with _ | vc
  · simp [reverseHS, hv]
  rcases hy : p.year with _ | y
  · simp [reverseHS, hv, hy]
  rcases hm : p.month with _ | m
  · simp [reverseHS, hv, hy, hm]
  rw [hv, hy, hm] at h
  have hg : vc = "" ∨ y = 0 ∨ m = 0 ∨ p.amount = 0 := by
    rcases h with h | h | h | h
    · left; simpa [truthyStr] using h
    · right; left; simpa [truthyInt] using h
    · right; right; left; simpa [truthyInt] using h
    · right; right; right; exact h
  simp [reverseHS, hv, hy, hm, hg]

theorem filter_matches_nil {st : SliceState} {M : Entry → Bool}
    (h : ∀ e ∈ st.entries, M e = false) :
    st.entries.enum.filter (fun ie => M ie.2) = [] := by
  rw [List.filter_eq_nil_iff]
  intro x hx
  have hmem : x.2 ∈ st.entries :=
    List.getElem?_mem (List.mem_enum_iff_getElem?.mp hx)
  simp [h _ hmem]

theorem applySC_noop_nomatch (st : SliceState) (p : PaymentPayload)
    (vc : String) (y m : ℤ)
    (hv : p.vendorCode = some vc) (hy : p.year = some y) (hm : p.month = some m)
    (h : ∀ e ∈ st.entries, matchesSC vc y m e = false) :
    applySC st p = st := by
  by_cases hg : vc = "" ∨ y = 0 ∨ m = 0 ∨ p.amount ≤ 0
  · simp [applySC, hv, hy, hm, hg]
  · simp [applySC, hv, hy, hm, hg, filter_matches_nil h]

theorem reverseSC_noop_nomatch (st : SliceState) (p : PaymentPayload)
    (vc : String) (y m : ℤ)
    (hv : p.vendorCode = some vc) (hy : p.year = some y) (hm : p.month = some m)
    (h : ∀ e ∈ st.entries, matchesSC vc y m e = false) :
    reverseSC st p = st := by
  by_cases hg : vc = "" ∨ y = 0 ∨ m = 0 ∨ p.amount ≤ 0
  · simp [reverseSC, hv, hy, hm, hg]
  · simp [reverseSC, hv, hy, hm, hg, filter_matches_nil h]

theorem applyHS_noop_nomatch (st : SliceState) (p : PaymentPayload)
    (vc : String) (y m : ℤ)
    (hv : p.vendorCode = some vc) (hy : p.year = some y) (hm : p.month = some m)
    (h : ∀ e ∈ st.entries, matchesHS vc y m e = false) :
    applyHS st p = st := by
  by_cases hg : vc = "" ∨ y = 0 ∨ m = 0 ∨ p.amount = 0
  · simp [applyHS, hv, hy, hm, hg]
  · by_cases hhs : startsWithHS vc
    · simp [applyHS, hv, hy, hm, hg, hhs, filter_matches_nil h]
    · simp [applyHS, hv, hy, hm, hg, hhs]

theorem reverseHS_noop_nomatch (st : SliceState) (p : PaymentPayload)
    (vc : String) (y m : ℤ)
    (hv : p.vendorCode = some vc) (hy : p.year = some y) (hm : p.month = some m)
    (h : ∀ e ∈ st.entries, matchesHS vc y m e = false) :
    reverseHS st p = st := by
  by_cases hg : vc = "" ∨ y = 0 ∨ m = 0 ∨ p.amount = 0
  · simp [reverseHS, hv, hy, hm, hg]
  · by_cases hhs : startsWithHS vc
    · simp [reverseHS, hv, hy, hm, hg, hhs, filter_matches_nil h]
    · simp [reverseHS, hv, hy, hm, hg, hhs]

theorem applySC_noop_noid (st : SliceState) (p : PaymentPayload)
    (vc : String) (y m : ℤ) (eid : String)
    (hv : p.vendorCode = some vc) (hy : p.year = some y) (hm : p.month = some m)
    (heid : entryIdOf p = some eid)
    (h : ∀ e ∈ st.entries, matchesSC vc y m e = true → e.id ≠ eid) :
    applySC st p = st := by
  by_cases hg : vc = "" ∨ y = 0 ∨ m = 0 ∨ p.amount ≤ 0
  · simp [applySC, hv, hy, hm, hg]
  have hfind : (List.insertionSort (fun a b : ℕ × Entry => sortKey a.2 ≤ sortKey b.2)
      (st.entries.enum.filter (fun ie => matchesSC vc y m ie.2))).find?
      (fun ie => ie.2.id == eid) = none := by
    rw [List.find?_eq_none]
    intro x hx
    have hx3 := List.mem_filter.mp ((List.mem_insertionSort _).mp hx)
    have hmem : x.2 ∈ st.entries :=
      List.getElem?_mem (List.mem_enum_iff_getElem?.mp hx3.1)
    simp only [beq_iff_eq]
    exact h _ hmem hx3.2
  simp [applySC, hv, hy, hm, hg, heid, hfind]

theorem reverseSC_noop_noid (st : SliceState) (p : PaymentPayload)
    (vc : String) (y m : ℤ) (eid : String)
    (hv : p.vendorCode = some vc) (hy : p.year = some y) (hm : p.month = some m)
    (heid : entryIdOf p = some eid)
    (h : ∀ e ∈ st.entries, matchesSC vc y m e = true → e.id ≠ eid) :
    reverseSC st p = st := by
  by_cases hg : vc = "" ∨ y = 0 ∨ m = 0 ∨ p.amount ≤ 0
  · simp [reverseSC, hv, hy, hm, hg]
  have hfind : (List.insertionSort (fun a b : ℕ × Entry => sortKey b.2 ≤ sortKey a.2)
      (st.entries.enum.filter (fun ie => matchesSC vc y m ie.2))).find?
      (fun ie => ie.2.id == eid) = none := by
    rw [List.find?_eq_none]
    intro x hx
    have hx3 := List.mem_filter.mp ((List.mem_insertionSort _).mp hx)
    have hmem : x.2 ∈ st.entries :=
      List.getElem?_mem (List.mem_enum_iff_getElem?.mp hx3.1)
    simp only [beq_iff_eq]
    exact h _ hmem hx3.2
  simp [reverseSC, hv, hy, hm, hg, heid, hfind]

theorem applyHS_noop_noid (st : SliceState) (p : PaymentPayload)
    (vc : String) (y m : ℤ) (eid : String)
    (hv : p.vendorCode = some vc) (hy : p.year = some y) (hm : p.month = some m)
    (heid : entryIdOf p = some eid)
    (h : ∀ e ∈ st.entries, matchesHS vc y m e = true → e.id ≠ eid) :
    applyHS st p = st := by
  by_cases hg : vc = "" ∨ y = 0 ∨ m = 0 ∨ p.amount = 0
  · simp [applyHS, hv, hy, hm, hg]
  by_cases hhs : startsWithHS vc
  case neg => simp [applyHS, hv, hy, hm, hg, hhs]
  have hfind : (st.entries.enum.filter (fun ie => matchesHS vc y m ie.2)).find?
      (fun ie => ie.2.id == eid) = none := by
    rw [List.find?_eq_none]
    intro x hx
    have hx3 := List.mem_filter.mp hx
    have hmem : x.2 ∈ st.entries :=
      List.getElem?_mem (List.mem_enum_iff_getElem?.mp hx3.1)
    simp only [beq_iff_eq]
    exact h _ hmem hx3.2
  simp [applyHS, hv, hy, hm, hg, hhs, heid, hfind]

theorem reverseHS_noop_noid (st : SliceState) (p : PaymentPayload)
    (vc : String) (y m : ℤ) (eid : String)
    (hv : p.vendorCode = some vc) (hy : p.year = some y) (hm : p.month = some m)
    (heid : entryIdOf p = some eid)
    (h : ∀ e ∈ st.entries, matchesHS vc y m e = true → e.id ≠ eid) :
    reverseHS st p = st := by
  by_cases hg : vc = "" ∨ y = 0 ∨ m = 0 ∨ p.amount = 0
  · simp [reverseHS, hv, hy, hm, hg]
  by_cases hhs : startsWithHS vc
  case neg => simp [reverseHS, hv, hy, hm, hg, hhs]
  have hfind : (st.entries.enum.filter (fun ie => matchesHS vc y m ie.2)).find?
      (fun ie => ie.2.id == eid) = none := by
    rw [List.find?_eq_none]
    intro x hx
    have hx3 := List.mem_filter.mp hx
    have hmem : x.2 ∈ st.entries :=
      List.getElem?_mem (List.mem_enum_iff_getElem?.mp hx3.1)
    simp only [beq_iff_eq]
    exact h _ hmem hx3.2
  simp [reverseHS, hv, hy, hm, hg, hhs, heid, hfind]

/-- C10 counterexample: the hiring apply guard rejects only falsy
amounts, so a negative amount (−5) with an explicit entry id passes and
mutates the target: its `part_paid` drops from 10 to 5 (and `payables`
grows), refuting the claim that a non-positive amount leaves either
collection unchanged. -/
theorem c10_negative_amount_counterexample :
    (applyHS hsState hsNegPayload).entries.map Entry.part_paid = [5] ∧
      hsState.entries.map Entry.part_paid = [10] ∧
      applyHS hsState hsNegPayload ≠ hsState := by
  have h1 : (applyHS hsState hsNegPayload).entries.map Entry.part_paid = [5] := by
    norm_num +decide [applyHS, hsState, hsNegPayload, hsEntry, baseEntry, matchesHS,
      startsWithHS, entryIdOf, applyWalk, applyUpdates, round2,
      List.enum, List.enumFrom]
  have h2 : hsState.entries.map Entry.part_paid = [10] := by
    norm_num [hsState, hsEntry, baseEntry]
  refine ⟨h1, h2, ?_⟩
  intro heq
  rw [heq, h2] at h1
  norm_num at h1

/-- C10 amended: for both vendor-class collections, apply and reverse
are no-ops when vendorCode/year/month is missing or falsy, when no
entry matches the vendor and period, or when a given entry id is
absent from the matches; the subcontractor reducers additionally
no-op on every non-positive amount, while the hiring reducers reject
only a zero (falsy) amount — a negative amount with an entry id does
mutate the target.  Whenever entries change, only `part_paid` and
`payables` of matching entries change: the other slice fields, the
entry count, every other entry field, and every non-matching entry are
untouched. -/
theorem c10_frame_conditions :
    (∀ (st : SliceState) (p : PaymentPayload),
      truthyStr p.vendorCode = false ∨ truthyInt p.year = false ∨
        truthyInt p.month = false ∨ p.amount ≤ 0 →
      applySC st p = st ∧ reverseSC st p = st) ∧
    (∀ (st : SliceState) (p : PaymentPayload),
      truthyStr p.vendorCode = false ∨ truthyInt p.year = false ∨
        truthyInt p.month = false ∨ p.amount = 0 →
      applyHS st p = st ∧ reverseHS st p = st) ∧
    (∀ (st : SliceState) (p : PaymentPayload) (vc : String) (y m : ℤ),
      p.vendorCode = some vc → p.year = some y → p.month = some m →
      (∀ e ∈ st.entries, matchesSC vc y m e = false) →
      applySC st p = st ∧ reverseSC st p = st) ∧
    (∀ (st : SliceState) (p : PaymentPayload) (vc : String) (y m : ℤ),
      p.vendorCode = some vc → p.year = some y → p.month = some m →
      (∀ e ∈ st.entries, matchesHS vc y m e = false) →
      applyHS st p = st ∧ reverseHS st p = st) ∧
    (∀ (st : SliceState) (p : PaymentPayload) (vc : String) (y m : ℤ) (eid : String),
      p.vendorCode = some vc → p.year = some y → p.month = some m →
      entryIdOf p = some eid →
      (∀ e ∈ st.entries, matchesSC vc y m e = true → e.id ≠ eid) →
      applySC st p = st ∧ reverseSC st p = st) ∧
    (∀ (st : SliceState) (p : PaymentPayload) (vc : String) (y m : ℤ) (eid : String),
      p.vendorCode = some vc → p.year = some y → p.month = some m →
      entryIdOf p = some eid →
      (∀ e ∈ st.entries, matchesHS vc y m e = true → e.id ≠ eid) →
      applyHS st p = st ∧ reverseHS st p = st) ∧
    framePreserved applySC ∧ framePreserved reverseSC ∧
    framePreserved applyHS ∧ framePreserved reverseHS ∧
    (∀ (st : SliceState) (p : PaymentPayload) (vc : String) (y m : ℤ) (i : ℕ) (e : Entry),
      p.vendorCode = some vc → p.year = some y → p.month = some m →
      st.entries[i]? = some e → matchesSC vc y m e = false →
      (applySC st p).entries[i]? = some e ∧ (reverseSC st p).entries[i]? = some e) ∧
    (∀ (st : SliceState) (p : PaymentPayload) (vc : String) (y m : ℤ) (i : ℕ) (e : Entry),
      p.vendorCode = some vc → p.year = some y → p.month = some m →
      st.entries[i]? = some e → matchesHS vc y m e = false →
      (applyHS st p).entries[i]? = some e ∧ (reverseHS st p).entries[i]? = some e) := by
  refine ⟨?_, ?_, ?_, ?_, ?_, ?_, ?_, ?_, ?_, ?_, ?_, ?_⟩
  · exact fun st p h => ⟨applySC_noop_guard st p h, reverseSC_noop_guard st p h⟩
  · exact fun st p h => ⟨applyHS_noop_guard st p h, reverseHS_noop_guard st p h⟩
  · exact fun st p vc y m hv hy hm h =>
      ⟨applySC_noop_nomatch st p vc y m hv hy hm h,
       reverseSC_noop_nomatch st p vc y m hv hy hm h⟩
  · exact fun st p vc y m hv hy hm h =>
      ⟨applyHS_noop_nomatch st p vc y m hv hy hm h,
       reverseHS_noop_nomatch st p vc y m hv hy hm h⟩
  · exact fun st p vc y m eid hv hy hm heid h =>
      ⟨applySC_noop_noid st p vc y m eid hv hy hm heid h,
       reverseSC_noop_noid st p vc y m eid hv hy hm heid h⟩
  · exact fun st p vc y m eid hv hy hm heid h =>
      ⟨applyHS_noop_noid st p vc y m eid hv hy hm heid h,
       reverseHS_noop_noid st p vc y m eid hv hy hm heid h⟩
  · refine framePreserved_of _ (fun st p => ?_)
    rcases applySC_shape st p with h | ⟨_, _, _, _, _, _, _, ups, heq, _⟩
    · exact Or.inl h
    · exact Or.inr ⟨ups, heq⟩
  · refine framePreserved_of _ (fun st p => ?_)
    rcases reverseSC_shape st p with h | ⟨_, _, _, _, _, _, _, ups, heq, _⟩
    · exact Or.inl h
    · exact Or.inr ⟨ups, heq⟩
  · refine framePreserved_of _ (fun st p => ?_)
    rcases applyHS_shape st p with h | ⟨_, _, _, _, _, _, ups, heq, _⟩
    · exact Or.inl h
    · exact Or.inr ⟨ups, heq⟩
  · refine framePreserved_of _ (fun st p => ?_)
    rcases reverseHS_shape st p with h | ⟨_, _, _, _, _, _, ups, heq, _⟩
    · exact Or.inl h
    · exact Or.inr ⟨ups, heq⟩
  · intro st p vc y m i e hv hy hm hget hnm
    constructor
    · rcases applySC_shape st p with heq | ⟨vc2, y2, m2, hv2, hy2, hm2, _, ups, heq, hups⟩
      · rw [heq]; exact hget
      · rw [hv] at hv2
        obtain rfl := Option.some_inj.mp hv2
        rw [hy] at hy2
        obtain rfl := Option.some_inj.mp hy2
        rw [hm] at hm2
        obtain rfl := Option.some_inj.mp hm2
        rw [heq]
        exact untouched_of_updates
          (fun u hu => (hups u hu).elim (fun e2 h2 => ⟨e2, h2.1, h2.2.1⟩)) hget hnm
    · rcases reverseSC_shape st p with heq | ⟨vc2, y2, m2, hv2, hy2, hm2, _, ups, heq, hups⟩
      · rw [heq]; exact hget
      · rw [hv] at hv2
        obtain rfl := Option.some_inj.mp hv2
        rw [hy] at hy2
        obtain rfl := Option.some_inj.mp hy2
        rw [hm] at hm2
        obtain rfl := Option.some_inj.mp hm2
        rw [heq]
        exact untouched_of_updates
          (fun u hu => (hups u hu).elim (fun e2 h2 => ⟨e2, h2.1, h2.2.1⟩)) hget hnm
  · intro st p vc y m i e hv hy hm hget hnm
    constructor
    · rcases applyHS_shape st p with heq | ⟨vc2, y2, m2, hv2, hy2, hm2, ups, heq, hups⟩
      · rw [heq]; exact hget
      · rw [hv] at hv2
        obtain rfl := Option.some_inj.mp hv2
        rw [hy] at hy2
        obtain rfl := Option.some_inj.mp hy2
        rw [hm] at hm2
        obtain rfl := Option.some_inj.mp hm2
        rw [heq]
        exact untouched_of_updates hups hget hnm
    · rcases reverseHS_shape st p with heq | ⟨vc2, y2, m2, hv2, hy2, hm2, ups, heq, hups⟩
      · rw [heq]; exact hget
      · rw [hv] at hv2
        obtain rfl := Option.some_inj.mp hv2
        rw [hy] at hy2
        obtain rfl := Option.some_inj.mp hy2
        rw [hm] at hm2
        obtain rfl := Option.some_inj.mp hm2
        rw [heq]
        exact untouched_of_updates hups hget hnm

/-- C10 witness: the no-op and frame conditions applied at concrete
inputs. -/
theorem c10_frame_conditions_witness :
    applySC overState { vendorCode := none, year := some 2025, month := some 7, amount := 5, entryId := none } = overState ∧
    applyHS hsState { hsNegPayload with amount := 0 } = hsState :=
  ⟨(c10_frame_conditions.1 overState _ (Or.inl (by decide))).1,
   (c10_frame_conditions.2.1 hsState _ (Or.inr (Or.inr (Or.inr rfl)))).1⟩

/-- C2 counterexample: with a prior negative `part_paid` (−10) and
payables 5, applying 5 then reversing 5 does not restore the entry:
apply sets `part_paid` to −5 and `payables` to 0, and the reverse walk
skips entries with non-positive `part_paid`, leaving `payables` at 0
instead of 5 (all quantities exact 2-decimal values). -/
theorem c2_roundtrip_counterexample :
    (reverseSC (applySC negPartState negPartPayload) negPartPayload).entries.map
        Entry.payables = [0] ∧
      negPartEntry.payables = 5 ∧
      (reverseSC (applySC negPartState negPartPayload) negPartPayload).entries.map
        Entry.payables ≠ [negPartEntry.payables] := by
  have h1 : (reverseSC (applySC negPartState negPartPayload) negPartPayload).entries.map
      Entry.payables = [0] := by
    norm_num +decide [applySC, reverseSC, negPartState, negPartPayload, negPartEntry,
      baseEntry, matchesSC, entryIdOf, sortKey, applyWalk, reverseWalk, applyUpdates,
      round2, List.enum, List.enumFrom, List.insertionSort, List.orderedInsert]
  have h2 : negPartEntry.payables = 5 := by norm_num [negPartEntry, baseEntry]
  refine ⟨h1, h2, ?_⟩
  rw [h1, h2]
  norm_num

/-- C2 amended: for a sole matching entry whose fields and the amount
are exact 2-decimal values, with non-negative prior `part_paid` and
`0 < a ≤ payables`, dispatching apply then reverse for the same amount
through the subcontractor reducers restores the state exactly. -/
theorem c2_apply_reverse_roundtrip :
    ∀ (e : Entry) (a : ℚ) (lo : Bool) (err : Option String) (sy sm : ℤ),
      e.vendor_code ≠ "" → e.year ≠ 0 → e.month ≠ 0 →
      0 ≤ e.part_paid → 0 < a → a ≤ e.payables →
      twoDec e.part_paid → twoDec e.payables → twoDec a →
      reverseSC
        (applySC ⟨[e], lo, err, sy, sm⟩
          ⟨some e.vendor_code, some e.year, some e.month, a, none⟩)
        ⟨some e.vendor_code, some e.year, some e.month, a, none⟩ =
      ⟨[e], lo, err, sy, sm⟩ := by
  intro e a lo err sy sm hvc hy hm hpp ha hle hd1 hd2 hd3
  have hpay : 0 < e.payables := lt_of_lt_of_le ha hle
  have hg : ¬(e.vendor_code = "" ∨ e.year = 0 ∨ e.month = 0 ∨ a ≤ 0) := by
    push_neg
    exact ⟨hvc, hy, hm, ha⟩
  have hmatch : matchesSC e.vendor_code e.year e.month e = true := by simp [matchesSC]
  have hr1 : round2 (e.part_paid + a) = e.part_paid + a :=
    round2_twoDec (twoDec_add hd1 hd3)
  have hr2 : round2 (e.payables - a) = e.payables - a :=
    round2_twoDec (twoDec_sub hd2 hd3)
  have happly : applySC ⟨[e], lo, err, sy, sm⟩
      ⟨some e.vendor_code, some e.year, some e.month, a, none⟩ =
      ⟨[{ e with part_paid := e.part_paid + a, payables := e.payables - a }],
        lo, err, sy, sm⟩ := by
    simp only [applySC]
    rw [if_neg hg]
    simp [List.enum, List.enumFrom, hmatch, List.insertionSort, List.orderedInsert,
      entryIdOf, applyWalk, applyUpdates, not_le.mpr ha, not_le.mpr hpay,
      min_eq_left hle, max_eq_right (sub_nonneg.mpr hle), hr1, hr2]
  rw [happly]
  have hmatch2 : matchesSC e.vendor_code e.year e.month
      { e with part_paid := e.part_paid + a, payables := e.payables - a } = true := by
    simp [matchesSC]
  have hppa : 0 < e.part_paid + a := by linarith
  have hr3 : round2 e.part_paid = e.part_paid := round2_twoDec hd1
  have hr4 : round2 e.payables = e.payables := round2_twoDec hd2
  simp only [reverseSC]
  rw [if_neg hg]
  simp [List.enum, List.enumFrom, hmatch2, List.insertionSort, List.orderedInsert,
    entryIdOf, reverseWalk, applyUpdates, not_le.mpr ha, not_le.mpr hppa,
    min_eq_left (le_add_of_nonneg_left hpp), add_sub_cancel_right, sub_add_cancel,
    max_eq_right hpp, hr3, hr4]

/-- C2 witness: the round-trip applied to a concrete entry. -/
theorem c2_apply_reverse_roundtrip_witness :
    reverseSC
        (applySC ⟨[baseEntry], false, none, 2025, 7⟩
          ⟨some baseEntry.vendor_code, some baseEntry.year, some baseEntry.month, 120, none⟩)
        ⟨some baseEntry.vendor_code, some baseEntry.year, some baseEntry.month, 120, none⟩ =
      ⟨[baseEntry], false, none, 2025, 7⟩ :=
  c2_apply_reverse_roundtrip baseEntry 120 false none 2025 7
    (by decide) (by decide) (by decide)
    (by norm_num [baseEntry]) (by norm_num) (by norm_num [baseEntry])
    ⟨0, by norm_num [baseEntry]⟩ ⟨30000, by norm_num [baseEntry]⟩ ⟨12000, by norm_num⟩

end VM
